import Mathlib

/-!
Shallow embedding of the debt payoff simulation core of the Pathlight backend
(src/backend/app/shared/calculation_utils.py, src/backend/app/recommendations/routes.py,
src/backend/app/scenarios/routes.py), together with theorems settling the frozen
claims about it.

Modelling conventions:
* Python floats are modelled as exact rationals (ℚ); the source's floating-point
  tolerances (0.01 payoff threshold, 0.01 surplus threshold, $1 optimizer
  tolerance) are kept as the exact rational constants written in the source.
* Dates are modelled as integers counting days; the source only ever adds
  `timedelta(days=30 * months)` to the start date, so a day counter is a
  faithful image of the date arithmetic.
* Python exceptions (`raise ValueError`) become `Except SimError`; the numeric
  values interpolated into an error message are carried in the error value.
* Python lists are Lean lists; `sorted(key=...)` (a stable sort) is modelled by
  `List.insertionSort` (also stable, ties keep input order).
* `uuid.uuid4()` (the only nondeterminism in the core) is modelled by a fixed
  placeholder string; no claim mentions the scenario id.
-/

/-- Debt record as consumed by the simulation core; mirrors the required fields
of `SimpleDebt` (src/backend/app/shared/simple_debt_models.py).  The many
optional presentation fields are not read by the core and are omitted;
`is_delinquent` is kept because the recommendation layer reads it. -/
structure SimpleDebt where
  id : String
  name : String
  balance : ℚ
  apr : ℚ
  minimum_payment : ℚ
  is_delinquent : Bool
deriving DecidableEq

/-- `PayoffStrategy` enum (src/backend/app/shared/scenario_models.py). -/
inductive PayoffStrategy where
  | snowball
  | avalanche
  | custom
deriving DecidableEq

/-- `ScenarioType` enum (src/backend/app/shared/scenario_models.py). -/
inductive ScenarioType where
  | base
  | whatIf
  | optimized
deriving DecidableEq

/-- One row of the payoff schedule; mirrors `PayoffScheduleItem`. -/
structure PayoffScheduleItem where
  month : ℕ
  payment_date : ℤ
  debt_id : String
  debt_name : String
  payment : ℚ
  principal : ℚ
  interest : ℚ
  remaining_balance : ℚ
deriving DecidableEq

/-- Per-debt terminal record; mirrors `DebtPayoffSummary`. -/
structure DebtPayoffSummary where
  debt_id : String
  debt_name : String
  original_balance : ℚ
  total_paid : ℚ
  total_interest : ℚ
  months_to_payoff : ℕ
  payoff_date : ℤ
deriving DecidableEq

/-- Complete simulation output; mirrors `PayoffScenario`. -/
structure PayoffScenario where
  scenario_id : String
  name : String
  strategy : PayoffStrategy
  scenario_type : ScenarioType
  monthly_payment : ℚ
  start_date : ℤ
  total_months : ℕ
  payoff_date : ℤ
  total_interest : ℚ
  total_paid : ℚ
  schedule : List PayoffScheduleItem
  debt_summaries : List DebtPayoffSummary
deriving DecidableEq

/-- Errors raised by `simulate_payoff_scenario` (both are `ValueError` in the
source, calculation_utils.py lines 90-99); the payload of
`insufficientPayment` records the two numeric values interpolated into the
message text. -/
inductive SimError where
  | noDebts
  | insufficientPayment (monthly_payment : ℚ) (total_minimums : ℚ)
deriving DecidableEq

/-- The numeric amounts interpolated into the raised error's message.  The
insufficient-payment message (calculation_utils.py lines 96-99) reads
"Monthly payment ($p) must be at least ($m) to cover all minimum payments",
interpolating exactly the offered payment and the total of minimums. -/
def SimError.messageAmounts : SimError → List ℚ
  | .noDebts => []
  | .insufficientPayment p m => [p, m]

/-- `calculate_monthly_interest` (calculation_utils.py lines 15-20):
(Balance × APR ÷ 100) ÷ 12. -/
def calculate_monthly_interest (balance : ℚ) (apr : ℚ) : ℚ :=
  (balance * apr / 100) / 12

/-- Model of the dict comprehension `debt_map = {d.id: d for d in debts}`
followed by `debt_map[debt_id]` lookup guarded by `debt_id in debt_map`
(calculation_utils.py lines 52-58): a Python dict built this way keeps the
LAST debt for a duplicated id, hence the search over the reversed list. -/
def debtMapFind (debts : List SimpleDebt) (debt_id : String) : Option SimpleDebt :=
  List.find? (fun d => d.id == debt_id) debts.reverse

/-- `order_debts_by_strategy` (calculation_utils.py lines 22-66).
Python's `sorted` with a key is a stable sort; `List.insertionSort` is stable,
so ties are broken by input order in both.  `custom_order=None` and
`custom_order=[]` take the same branch in the source (both falsy) and are
modelled by the empty list. -/
def order_debts_by_strategy (debts : List SimpleDebt) (strategy : PayoffStrategy)
    (custom_order : List String) : List SimpleDebt :=
  match strategy with
  | .snowball => List.insertionSort (fun a b => a.balance ≤ b.balance) debts
  | .avalanche => List.insertionSort (fun a b => b.apr ≤ a.apr) debts
  | .custom =>
    if custom_order = [] then
      List.insertionSort (fun a b => a.balance ≤ b.balance) debts
    else
      let ordered := custom_order.filterMap (fun debt_id => debtMapFind debts debt_id)
      let remaining := debts.filter (fun d => ! custom_order.contains d.id)
      ordered ++ List.insertionSort (fun a b => a.balance ≤ b.balance) remaining

/-- Working state for one debt during simulation; mirrors the per-debt dict
created at calculation_utils.py lines 105-115 (the `'debt': deepcopy(debt)`
entry is value-copied here, matching deepcopy semantics). -/
structure WorkingDebt where
  debt : SimpleDebt
  remaining_balance : ℚ
  total_paid : ℚ
  total_interest : ℚ
  months_to_payoff : ℕ
  paid_off : Bool
deriving DecidableEq

/-- Initial working state of one debt (calculation_utils.py lines 105-115). -/
def initWorking (d : SimpleDebt) : WorkingDebt :=
  { debt := d, remaining_balance := d.balance, total_paid := 0, total_interest := 0,
    months_to_payoff := 0, paid_off := false }

/-- The 0.01 payoff threshold of calculation_utils.py lines 163 and 194
("Account for floating point"). -/
def payoffThreshold : ℚ := 0.01

/-- The 0.01 surplus threshold of calculation_utils.py line 181
(`if remaining_payment > 0.01`). -/
def surplusThreshold : ℚ := 0.01

/-- `MAX_MONTHS = 600` (calculation_utils.py line 124). -/
def MAX_MONTHS : ℕ := 600

/-- One debt's minimum-payment step (calculation_utils.py lines 138-178),
executed only for a debt that is not yet paid off: charge this month's
interest, pay `min(minimum_payment, balance + interest)`, split it into
interest and principal, snap a balance at or below 0.01 to zero, and emit the
schedule row. -/
def payMinimumStep (current_month : ℕ) (current_date : ℤ) (wd : WorkingDebt) :
    WorkingDebt × PayoffScheduleItem :=
  let debt := wd.debt
  let balance := wd.remaining_balance
  let monthly_interest := calculate_monthly_interest balance debt.apr
  let payment_amount := min debt.minimum_payment (balance + monthly_interest)
  let interest_portion := min monthly_interest payment_amount
  let principal_portion := payment_amount - interest_portion
  let new_balance := balance - principal_portion
  let snapped := new_balance ≤ payoffThreshold
  let wd' : WorkingDebt :=
    { debt := debt
      remaining_balance := if snapped then 0 else new_balance
      total_paid := wd.total_paid + payment_amount
      total_interest := wd.total_interest + interest_portion
      months_to_payoff := if snapped then current_month else wd.months_to_payoff
      paid_off := if snapped then true else wd.paid_off }
  let item : PayoffScheduleItem :=
    { month := current_month
      payment_date := current_date
      debt_id := debt.id
      debt_name := debt.name
      payment := payment_amount
      principal := principal_portion
      interest := interest_portion
      remaining_balance := max 0 wd'.remaining_balance }
  (wd', item)

/-- Phase 1 of one simulated month (calculation_utils.py lines 133-178): every
not-yet-paid-off debt receives its minimum-payment step, in list order; paid
off debts are skipped.  Returns the updated working list (same order) and this
month's schedule rows (in the order they are appended). -/
def minimumPhase (current_month : ℕ) (current_date : ℤ) :
    List WorkingDebt → List WorkingDebt × List PayoffScheduleItem
  | [] => ([], [])
  | wd :: rest =>
    if wd.paid_off then
      let r := minimumPhase current_month current_date rest
      (wd :: r.1, r.2)
    else
      let p := payMinimumStep current_month current_date wd
      let r := minimumPhase current_month current_date rest
      (p.1 :: r.1, p.2 :: r.2)

/-- The phase-2 update applied to the single target debt
(calculation_utils.py lines 185-197): pay `min(remaining_payment,
remaining_balance)` entirely as extra principal, snap-and-flag as in phase 1. -/
def extraUpdatedDebt (current_month : ℕ) (remaining_payment : ℚ) (wd : WorkingDebt) :
    WorkingDebt :=
  let extra_payment := min remaining_payment wd.remaining_balance
  let new_balance := wd.remaining_balance - extra_payment
  let snapped := new_balance ≤ payoffThreshold
  { debt := wd.debt
    remaining_balance := if snapped then 0 else new_balance
    total_paid := wd.total_paid + extra_payment
    total_interest := wd.total_interest
    months_to_payoff := if snapped then current_month else wd.months_to_payoff
    paid_off := if snapped then true else wd.paid_off }

/-- Phase 2 working-debt update (calculation_utils.py lines 182-197): find the
first not-yet-paid-off debt (`next(...)`) and apply `extraUpdatedDebt` to it.
Returns the updated list and, when a target was found, the data needed for the
in-place schedule update: the target's debt record, the extra amount, and the
target's post-update remaining balance. -/
def applyExtra (current_month : ℕ) (remaining_payment : ℚ) :
    List WorkingDebt → List WorkingDebt × Option (SimpleDebt × ℚ × ℚ)
  | [] => ([], none)
  | wd :: rest =>
    if wd.paid_off then
      let r := applyExtra current_month remaining_payment rest
      (wd :: r.1, r.2)
    else
      let wd' := extraUpdatedDebt current_month remaining_payment wd
      (wd' :: rest, some (wd.debt, min remaining_payment wd.remaining_balance,
        wd'.remaining_balance))

/-- The in-place schedule update of calculation_utils.py lines 199-205: walk
`reversed(schedule)` and update the first row matching the target debt's id in
the current month (payment and principal grow by the extra amount, remaining
balance is replaced).  The schedule is stored newest-row-first here (see
`SimState.schedule_rev`), so the reversed scan is a scan from the head. -/
def updateScheduleForExtra (debt_id : String) (current_month : ℕ)
    (extra : ℚ) (new_balance : ℚ) :
    List PayoffScheduleItem → List PayoffScheduleItem
  | [] => []
  | item :: rest =>
    if item.debt_id == debt_id && item.month == current_month then
      { item with
        payment := item.payment + extra
        principal := item.principal + extra
        remaining_balance := max 0 new_balance } :: rest
    else
      item :: updateScheduleForExtra debt_id current_month extra new_balance rest

/-- Simulation loop state (the local variables of calculation_utils.py lines
117-121).  `schedule_rev` holds the schedule rows newest first (the Python
list appends at the tail and scans `reversed(schedule)`; prepending here makes
that scan structural); the final scenario reverses it back to chronological
order. -/
structure SimState where
  working : List WorkingDebt
  schedule_rev : List PayoffScheduleItem
  month : ℕ
  total_interest : ℚ
  total_paid : ℚ
deriving DecidableEq

/-- One iteration of the month loop (calculation_utils.py lines 127-205):
advance the month and date, run the minimum-payment phase, accumulate the
global totals, and if more than 0.01 of the monthly payment is left, apply it
to the first unpaid debt and update that debt's schedule row for this month. -/
def simulateMonth (monthly_payment : ℚ) (start_date : ℤ) (s : SimState) : SimState :=
  let current_month := s.month + 1
  let current_date := start_date + 30 * (current_month : ℤ)
  let mp := minimumPhase current_month current_date s.working
  let working1 := mp.1
  let items := mp.2
  let phase_interest := (items.map (fun it => it.interest)).sum
  let phase_paid := (items.map (fun it => it.payment)).sum
  let remaining_payment := monthly_payment - phase_paid
  let sched1 := items.reverse ++ s.schedule_rev
  if remaining_payment > surplusThreshold then
    match applyExtra current_month remaining_payment working1 with
    | (working2, some info) =>
      { working := working2
        schedule_rev := updateScheduleForExtra info.1.id current_month info.2.1 info.2.2 sched1
        month := current_month
        total_interest := s.total_interest + phase_interest
        total_paid := s.total_paid + phase_paid + info.2.1 }
    | (working2, none) =>
      { working := working2
        schedule_rev := sched1
        month := current_month
        total_interest := s.total_interest + phase_interest
        total_paid := s.total_paid + phase_paid }
  else
    { working := working1
      schedule_rev := sched1
      month := current_month
      total_interest := s.total_interest + phase_interest
      total_paid := s.total_paid + phase_paid }

/-- The month loop `while any(not wd['paid_off'] ...) and current_month <
MAX_MONTHS` (calculation_utils.py line 127), with the month bound carried as
fuel: the loop is entered with fuel `MAX_MONTHS` and `month = 0`, so fuel
exhaustion is exactly `current_month = MAX_MONTHS`. -/
def runLoop (monthly_payment : ℚ) (start_date : ℤ) : ℕ → SimState → SimState
  | 0, s => s
  | fuel + 1, s =>
    if s.working.any (fun wd => ! wd.paid_off) then
      runLoop monthly_payment start_date fuel (simulateMonth monthly_payment start_date s)
    else s

/-- Initial loop state (calculation_utils.py lines 105-121). -/
def initSimState (ordered : List SimpleDebt) : SimState :=
  { working := ordered.map initWorking
    schedule_rev := []
    month := 0
    total_interest := 0
    total_paid := 0 }

/-- Input validation and the month loop of `simulate_payoff_scenario`
(calculation_utils.py lines 90-205), exposing the final loop state. -/
def runSimulation (debts : List SimpleDebt) (strategy : PayoffStrategy)
    (monthly_payment : ℚ) (start_date : ℤ) (custom_order : List String) :
    Except SimError SimState :=
  if debts = [] then
    .error .noDebts
  else
    let total_minimums := (debts.map (fun d => d.minimum_payment)).sum
    if monthly_payment < total_minimums then
      .error (.insufficientPayment monthly_payment total_minimums)
    else
      let ordered := order_debts_by_strategy debts strategy custom_order
      .ok (runLoop monthly_payment start_date MAX_MONTHS (initSimState ordered))

/-- Scenario naming (calculation_utils.py lines 222-228). -/
def resolveScenarioName (strategy : PayoffStrategy) : Option String → String
  | some n => n
  | none =>
    match strategy with
    | .snowball => "Snowball Strategy"
    | .avalanche => "Avalanche Strategy"
    | .custom => "Custom Strategy"

/-- Scenario construction from the final loop state (calculation_utils.py
lines 207-245).  `uuid.uuid4()` is modelled by a placeholder constant. -/
def buildScenario (strategy : PayoffStrategy) (monthly_payment : ℚ) (start_date : ℤ)
    (scenario_name : Option String) (s : SimState) : PayoffScenario :=
  { scenario_id := "uuid"
    name := resolveScenarioName strategy scenario_name
    strategy := strategy
    scenario_type := .base
    monthly_payment := monthly_payment
    start_date := start_date
    total_months := s.month
    payoff_date := start_date + 30 * (s.month : ℤ)
    total_interest := s.total_interest
    total_paid := s.total_paid
    schedule := s.schedule_rev.reverse
    debt_summaries := s.working.map (fun wd =>
      { debt_id := wd.debt.id
        debt_name := wd.debt.name
        original_balance := wd.debt.balance
        total_paid := wd.total_paid
        total_interest := wd.total_interest
        months_to_payoff := wd.months_to_payoff
        payoff_date := start_date + 30 * (wd.months_to_payoff : ℤ) }) }

/-- `simulate_payoff_scenario` (calculation_utils.py lines 68-245). -/
def simulate_payoff_scenario (debts : List SimpleDebt) (strategy : PayoffStrategy)
    (monthly_payment : ℚ) (start_date : ℤ) (custom_order : List String)
    (scenario_name : Option String) : Except SimError PayoffScenario :=
  (runSimulation debts strategy monthly_payment start_date custom_order).map
    (buildScenario strategy monthly_payment start_date scenario_name)

/-! ## Strategy recommender (src/backend/app/recommendations/routes.py) -/

/-- `PrimaryGoal` enum (src/backend/app/shared/enums.py lines 32-36). -/
inductive PrimaryGoal where
  | payFaster
  | lowerPayment
  | reduceInterest
  | avoidDefault
deriving DecidableEq

/-- The string value of each `PrimaryGoal` member; the recommender compares
`goal.value` against these literals. -/
def PrimaryGoal.value : PrimaryGoal → String
  | .payFaster => "pay-faster"
  | .lowerPayment => "lower-payment"
  | .reduceInterest => "reduce-interest"
  | .avoidDefault => "avoid-default"

/-- The slice of `Profile` (src/backend/app/shared/models.py lines 17-28) read
by `_determine_best_strategy`: the primary goal and the optional stress
level. -/
structure Profile where
  primary_goal : PrimaryGoal
  stress_level : Option ℤ
deriving DecidableEq

/-- `stress = profile.stress_level or 3` (recommendations/routes.py line 199):
Python's `or` replaces any falsy value (None, and the integer 0) by 3. -/
def effectiveStress (p : Profile) : ℤ :=
  match p.stress_level with
  | none => 3
  | some v => if v = 0 then 3 else v

/-- Strategy selection of `_determine_best_strategy`
(recommendations/routes.py lines 182-272).  The function also returns a
rationale string and a list of factor strings; those are presentation text
(interpolated prose) with no effect on the chosen strategy, and only the
strategy component is modelled.  `interest_savings` is computed in the source
but used only inside those strings. -/
def determine_best_strategy (profile : Profile) (debts : List SimpleDebt)
    (snowball : PayoffScenario) (avalanche : PayoffScenario) : PayoffStrategy :=
  let stress := effectiveStress profile
  let time_difference : ℤ := (snowball.total_months : ℤ) - (avalanche.total_months : ℤ)
  let small_debts := (debts.filter (fun d => d.balance < 2000)).length
  if profile.primary_goal.value = "pay-faster" then
    if time_difference > 3 then PayoffStrategy.avalanche
    else if 4 ≤ stress ∧ 2 ≤ small_debts then PayoffStrategy.snowball
    else PayoffStrategy.avalanche
  else if profile.primary_goal.value = "reduce-interest" then
    PayoffStrategy.avalanche
  else if profile.primary_goal.value = "lower-payment" then
    if 2 ≤ small_debts then PayoffStrategy.snowball else PayoffStrategy.avalanche
  else if profile.primary_goal.value = "avoid-default" then
    if 1 ≤ small_debts then PayoffStrategy.snowball else PayoffStrategy.avalanche
  else
    PayoffStrategy.avalanche

/-! ## Payment optimizer (src/backend/app/scenarios/routes.py lines 465-510) -/

/-- `tolerance = 1.0` ($1, scenarios/routes.py line 480). -/
def optimizeTolerance : ℚ := 1

/-- The body of `_optimize_for_target_months`'s `for _ in range(max_iterations)`
loop, with the remaining iteration count as fuel.  Each iteration simulates at
the midpoint; success within 1 month of the target returns the midpoint;
`total_months > target` (and any simulation `ValueError`) raises the lower
bound, otherwise the upper bound drops; after either update the loop breaks
when the bracket is narrower than the tolerance, and exiting the loop returns
the midpoint of the final bracket (lines 483-510). -/
def optimizeLoop (debts : List SimpleDebt) (strategy : PayoffStrategy)
    (target_months : ℤ) (start_date : ℤ) : ℕ → ℚ → ℚ → ℚ
  | 0, low, high => (low + high) / 2
  | fuel + 1, low, high =>
    let mid := (low + high) / 2
    match simulate_payoff_scenario debts strategy mid start_date [] none with
    | .ok scenario =>
      if |(scenario.total_months : ℤ) - target_months| ≤ 1 then mid
      else if (scenario.total_months : ℤ) > target_months then
        if high - mid < optimizeTolerance then (mid + high) / 2
        else optimizeLoop debts strategy target_months start_date fuel mid high
      else
        if mid - low < optimizeTolerance then (low + mid) / 2
        else optimizeLoop debts strategy target_months start_date fuel low mid
    | .error _ =>
      if high - mid < optimizeTolerance then (mid + high) / 2
      else optimizeLoop debts strategy target_months start_date fuel mid high

/-- `_optimize_for_target_months` (scenarios/routes.py lines 465-510): binary
search over `[sum(minimum_payments), sum(balances)]` with at most 50
iterations. -/
def optimize_for_target_months (debts : List SimpleDebt) (strategy : PayoffStrategy)
    (target_months : ℤ) (start_date : ℤ) : ℚ :=
  let total_minimums := (debts.map (fun d => d.minimum_payment)).sum
  let total_debt := (debts.map (fun d => d.balance)).sum
  optimizeLoop debts strategy target_months start_date 50 total_minimums total_debt

/-- Transcription of the CLAIMED optimizer algorithm, following the claim's
wording rather than the source: binary search over
`[sum of minimum payments, sum of balances]` for at most 50 iterations with a
$1 bracket tolerance; at each midpoint run the simulator and return the
midpoint immediately when the simulated month count is within 1 of the target;
raise the lower bound when the simulated months exceed the target OR the
simulation fails with the insufficient-payment error; lower the upper bound
when the simulated months are below the target; otherwise return the midpoint
of the final bracket.  The claim says nothing about a failure on an empty debt
list (impossible in its context), so that arm returns a junk value, and the
agreement theorem assumes a non-empty debt list. -/
def optimizeClaimLoop (debts : List SimpleDebt) (strategy : PayoffStrategy)
    (target_months : ℤ) (start_date : ℤ) : ℕ → ℚ → ℚ → ℚ
  | 0, low, high => (low + high) / 2
  | fuel + 1, low, high =>
    let mid := (low + high) / 2
    match simulate_payoff_scenario debts strategy mid start_date [] none with
    | .ok scenario =>
      if |(scenario.total_months : ℤ) - target_months| ≤ 1 then mid
      else if (scenario.total_months : ℤ) > target_months then
        if high - mid < optimizeTolerance then (mid + high) / 2
        else optimizeClaimLoop debts strategy target_months start_date fuel mid high
      else
        if mid - low < optimizeTolerance then (low + mid) / 2
        else optimizeClaimLoop debts strategy target_months start_date fuel low mid
    | .error (.insufficientPayment _ _) =>
      if high - mid < optimizeTolerance then (mid + high) / 2
      else optimizeClaimLoop debts strategy target_months start_date fuel mid high
    | .error .noDebts => 0

/-- Top level of the claimed algorithm: bracket `[sum of minimum payments,
sum of balances]`, at most 50 iterations. -/
def optimizeTargetMonthsClaim (debts : List SimpleDebt) (strategy : PayoffStrategy)
    (target_months : ℤ) (start_date : ℤ) : ℚ :=
  let total_minimums := (debts.map (fun d => d.minimum_payment)).sum
  let total_debt := (debts.map (fun d => d.balance)).sum
  optimizeClaimLoop debts strategy target_months start_date 50 total_minimums total_debt

/-! ## Store-level model of `simulate_payoff_scenario` for the frame-effect claim

The pure embedding above cannot express Python's in-place mutation, so the
same source function is modelled once more over an explicit object store: a
`Cell` list indexed by object reference.  The caller's debt objects occupy
references `0 .. debts.length - 1`; every Python statement that creates an
object (`deepcopy(debt)`, the per-debt working dict, `PayoffScheduleItem(...)`)
allocates a fresh cell at the end of the store, and every assignment that
mutates an object (`wd['...'] = ...`, `item.payment += ...`) becomes a
`List.set` at that object's reference.  The source performs no assignment
whose target is reachable from the caller's `debts` list, which the frame
theorem makes precise: the first `debts.length` cells of the final store are
the unchanged input debts. -/

/-- The per-debt working dict of calculation_utils.py lines 105-115, with its
`'debt'` entry as a reference to the deep-copied debt cell. -/
structure HeapWD where
  debtRef : ℕ
  remaining_balance : ℚ
  total_paid : ℚ
  total_interest : ℚ
  months_to_payoff : ℕ
  paid_off : Bool
deriving DecidableEq

/-- One heap object: a caller or deep-copied debt, a working dict, or a
schedule item. -/
inductive Cell where
  | debtCell (d : SimpleDebt)
  | wdCell (w : HeapWD)
  | itemCell (it : PayoffScheduleItem)
deriving DecidableEq

/-- Fallback for an ill-typed read; never reached from `heapSimulate`. -/
def defaultDebt : SimpleDebt :=
  { id := "", name := "", balance := 0, apr := 0, minimum_payment := 0, is_delinquent := false }

/-- Fallback working dict for an ill-typed read. -/
def defaultHeapWD : HeapWD :=
  { debtRef := 0, remaining_balance := 0, total_paid := 0, total_interest := 0,
    months_to_payoff := 0, paid_off := false }

/-- Fallback schedule item for an ill-typed read. -/
def defaultItem : PayoffScheduleItem :=
  { month := 0, payment_date := 0, debt_id := "", debt_name := "", payment := 0,
    principal := 0, interest := 0, remaining_balance := 0 }

/-- Read a debt object. -/
def readDebt (store : List Cell) (r : ℕ) : SimpleDebt :=
  match store.get? r with
  | some (.debtCell d) => d
  | _ => defaultDebt

/-- Read a working dict. -/
def readWD (store : List Cell) (r : ℕ) : HeapWD :=
  match store.get? r with
  | some (.wdCell w) => w
  | _ => defaultHeapWD

/-- Read a schedule item object. -/
def readItem (store : List Cell) (r : ℕ) : PayoffScheduleItem :=
  match store.get? r with
  | some (.itemCell it) => it
  | _ => defaultItem

/-- `order_debts_by_strategy` applied to references into the store
(calculation_utils.py lines 22-66; Python sorts the list of object
references, reading sort keys through them). -/
def orderRefsByStrategy (store : List Cell) (strategy : PayoffStrategy)
    (custom_order : List String) (refs : List ℕ) : List ℕ :=
  match strategy with
  | .snowball =>
    List.insertionSort (fun a b => (readDebt store a).balance ≤ (readDebt store b).balance) refs
  | .avalanche =>
    List.insertionSort (fun a b => (readDebt store b).apr ≤ (readDebt store a).apr) refs
  | .custom =>
    if custom_order = [] then
      List.insertionSort (fun a b => (readDebt store a).balance ≤ (readDebt store b).balance) refs
    else
      let ordered := custom_order.filterMap (fun debt_id =>
        List.find? (fun r => (readDebt store r).id == debt_id) refs.reverse)
      let remaining := refs.filter (fun r => ! custom_order.contains (readDebt store r).id)
      ordered ++ List.insertionSort
        (fun a b => (readDebt store a).balance ≤ (readDebt store b).balance) remaining

/-- A freshly created working dict (calculation_utils.py lines 105-115):
references the deep-copied debt, full balance remaining, zero totals. -/
def initialHeapWD (debtRef : ℕ) (balance : ℚ) : HeapWD :=
  { debtRef := debtRef, remaining_balance := balance, total_paid := 0,
    total_interest := 0, months_to_payoff := 0, paid_off := false }

/-- Working-state creation (calculation_utils.py lines 105-115): for each
ordered debt reference allocate the deep copy of the debt and then the working
dict pointing at that copy.  Returns the grown store and the working-dict
references in order. -/
def allocWorking : List ℕ → List Cell → List Cell × List ℕ
  | [], store => (store, [])
  | r :: rs, store =>
    let d := readDebt store r
    let copyRef := store.length
    let s1 := store ++ [Cell.debtCell d]
    let wdRef := s1.length
    let s2 := s1 ++ [Cell.wdCell (initialHeapWD copyRef d.balance)]
    let rest := allocWorking rs s2
    (rest.1, wdRef :: rest.2)

/-- Store-level minimum-payment step for one unpaid debt (calculation_utils.py
lines 138-178): mutate the working dict in place and allocate this month's
schedule item.  Returns the new store and the item's reference. -/
def heapPayMinimum (current_month : ℕ) (current_date : ℤ) (store : List Cell)
    (wdRef : ℕ) : List Cell × ℕ :=
  let w := readWD store wdRef
  let debt := readDebt store w.debtRef
  let balance := w.remaining_balance
  let monthly_interest := calculate_monthly_interest balance debt.apr
  let payment_amount := min debt.minimum_payment (balance + monthly_interest)
  let interest_portion := min monthly_interest payment_amount
  let principal_portion := payment_amount - interest_portion
  let new_balance := balance - principal_portion
  let snapped := new_balance ≤ payoffThreshold
  let w' : HeapWD :=
    { debtRef := w.debtRef
      remaining_balance := if snapped then 0 else new_balance
      total_paid := w.total_paid + payment_amount
      total_interest := w.total_interest + interest_portion
      months_to_payoff := if snapped then current_month else w.months_to_payoff
      paid_off := if snapped then true else w.paid_off }
  let s1 := store.set wdRef (Cell.wdCell w')
  let item : PayoffScheduleItem :=
    { month := current_month
      payment_date := current_date
      debt_id := debt.id
      debt_name := debt.name
      payment := payment_amount
      principal := principal_portion
      interest := interest_portion
      remaining_balance := max 0 w'.remaining_balance }
  (s1 ++ [Cell.itemCell item], s1.length)

/-- Store-level phase 1 (calculation_utils.py lines 133-178).  Returns the new
store, this month's item references in append order, and the summed interest
and payments of the month. -/
def heapMinimumPhase (current_month : ℕ) (current_date : ℤ) :
    List ℕ → List Cell → List Cell × List ℕ × ℚ × ℚ
  | [], store => (store, [], 0, 0)
  | r :: rs, store =>
    let w := readWD store r
    if w.paid_off then heapMinimumPhase current_month current_date rs store
    else
      let p := heapPayMinimum current_month current_date store r
      let item := readItem p.1 p.2
      let rest := heapMinimumPhase current_month current_date rs p.1
      (rest.1, p.2 :: rest.2.1, item.interest + rest.2.2.1, item.payment + rest.2.2.2)

/-- Store-level phase-2 working-dict update (calculation_utils.py lines
182-197): mutate the first unpaid working dict in place; returns the target's
debt id, the extra amount and the new balance when a target exists. -/
def heapApplyExtra (current_month : ℕ) (remaining_payment : ℚ) :
    List ℕ → List Cell → List Cell × Option (String × ℚ × ℚ)
  | [], store => (store, none)
  | r :: rs, store =>
    let w := readWD store r
    if w.paid_off then heapApplyExtra current_month remaining_payment rs store
    else
      let debt := readDebt store w.debtRef
      let extra_payment := min remaining_payment w.remaining_balance
      let new_balance := w.remaining_balance - extra_payment
      let snapped := new_balance ≤ payoffThreshold
      let w' : HeapWD :=
        { debtRef := w.debtRef
          remaining_balance := if snapped then 0 else new_balance
          total_paid := w.total_paid + extra_payment
          total_interest := w.total_interest
          months_to_payoff := if snapped then current_month else w.months_to_payoff
          paid_off := if snapped then true else w.paid_off }
      (store.set r (Cell.wdCell w'), some (debt.id, extra_payment, w'.remaining_balance))

/-- Store-level in-place schedule update (calculation_utils.py lines 199-205):
scan the item references newest first and mutate the first item of the target
debt in the current month. -/
def heapUpdateSchedule (debt_id : String) (current_month : ℕ) (extra : ℚ)
    (new_balance : ℚ) : List ℕ → List Cell → List Cell
  | [], store => store
  | r :: rs, store =>
    let it := readItem store r
    if it.debt_id == debt_id && it.month == current_month then
      store.set r (Cell.itemCell
        { it with
          payment := it.payment + extra
          principal := it.principal + extra
          remaining_balance := max 0 new_balance })
    else heapUpdateSchedule debt_id current_month extra new_balance rs store

/-- Store-level simulation state. -/
structure HeapSimState where
  store : List Cell
  wdRefs : List ℕ
  itemRefs_rev : List ℕ
  month : ℕ
  total_interest : ℚ
  total_paid : ℚ
deriving DecidableEq

/-- Store-level month iteration (calculation_utils.py lines 127-205). -/
def heapSimulateMonth (monthly_payment : ℚ) (start_date : ℤ) (s : HeapSimState) :
    HeapSimState :=
  let current_month := s.month + 1
  let current_date := start_date + 30 * (current_month : ℤ)
  let mp := heapMinimumPhase current_month current_date s.wdRefs s.store
  let store1 := mp.1
  let monthItems := mp.2.1
  let phase_interest := mp.2.2.1
  let phase_paid := mp.2.2.2
  let remaining_payment := monthly_payment - phase_paid
  let itemRefs1 := monthItems.reverse ++ s.itemRefs_rev
  if remaining_payment > surplusThreshold then
    match heapApplyExtra current_month remaining_payment s.wdRefs store1 with
    | (store2, some info) =>
      { store := heapUpdateSchedule info.1 current_month info.2.1 info.2.2 itemRefs1 store2
        wdRefs := s.wdRefs
        itemRefs_rev := itemRefs1
        month := current_month
        total_interest := s.total_interest + phase_interest
        total_paid := s.total_paid + phase_paid + info.2.1 }
    | (store2, none) =>
      { store := store2
        wdRefs := s.wdRefs
        itemRefs_rev := itemRefs1
        month := current_month
        total_interest := s.total_interest + phase_interest
        total_paid := s.total_paid + phase_paid }
  else
    { store := store1
      wdRefs := s.wdRefs
      itemRefs_rev := itemRefs1
      month := current_month
      total_interest := s.total_interest + phase_interest
      total_paid := s.total_paid + phase_paid }

/-- Store-level month loop (calculation_utils.py line 127). -/
def heapRunLoop (monthly_payment : ℚ) (start_date : ℤ) : ℕ → HeapSimState → HeapSimState
  | 0, s => s
  | fuel + 1, s =>
    if s.wdRefs.any (fun r => ! (readWD s.store r).paid_off) then
      heapRunLoop monthly_payment start_date fuel (heapSimulateMonth monthly_payment start_date s)
    else s

/-- Store-level `simulate_payoff_scenario` (calculation_utils.py lines 68-245):
the caller's debts are the cells `0 .. debts.length - 1`; the call returns the
final store (the caller-visible heap after the call) together with the result.
Scenario construction (lines 207-245) only reads the store. -/
def heapSimulate (debts : List SimpleDebt) (strategy : PayoffStrategy)
    (monthly_payment : ℚ) (start_date : ℤ) (custom_order : List String) :
    List Cell × Except SimError HeapSimState :=
  let store0 := debts.map Cell.debtCell
  let refs := List.range debts.length
  if debts = [] then (store0, .error .noDebts)
  else
    let total_minimums := (refs.map (fun r => (readDebt store0 r).minimum_payment)).sum
    if monthly_payment < total_minimums then
      (store0, .error (.insufficientPayment monthly_payment total_minimums))
    else
      let orderedRefs := orderRefsByStrategy store0 strategy custom_order refs
      let aw := allocWorking orderedRefs store0
      let final := heapRunLoop monthly_payment start_date MAX_MONTHS
        { store := aw.1, wdRefs := aw.2, itemRefs_rev := [], month := 0,
          total_interest := 0, total_paid := 0 }
      (final.store, .ok final)

/-! ## Concrete inputs used by counterexamples and witnesses -/

/-- Single debt paid off in one month: balance 100 at 0% APR, minimum 50. -/
def exDebtA : SimpleDebt :=
  { id := "a", name := "Debt A", balance := 100, apr := 0, minimum_payment := 50,
    is_delinquent := false }

/-- Debt whose minimum payment exactly equals its monthly interest: balance
1200 at 100% APR gives interest 100 per month, so a 100 payment never reduces
principal. -/
def exDebtOverrun : SimpleDebt :=
  { id := "ov", name := "Overrun", balance := 1200, apr := 100, minimum_payment := 100,
    is_delinquent := false }

/-- Debt whose final balance of 0.005 falls under the 0.01 payoff threshold
and is written off. -/
def exDebtWriteoff : SimpleDebt :=
  { id := "wo", name := "Writeoff", balance := 100.005, apr := 0, minimum_payment := 100,
    is_delinquent := false }

/-- Debt leaving a month surplus of 0.005, positive but below the 0.01
surplus threshold. -/
def exDebtSurplus : SimpleDebt :=
  { id := "su", name := "Surplus", balance := 1000, apr := 0, minimum_payment := 99.995,
    is_delinquent := false }

/-- Debt with minimum payment 120, for the insufficient-payment error. -/
def exDebtShortfall : SimpleDebt :=
  { id := "sf", name := "Shortfall", balance := 500, apr := 10, minimum_payment := 120,
    is_delinquent := false }

/-- Small debt used by optimizer and recommender examples. -/
def exDebtOpt : SimpleDebt :=
  { id := "op", name := "Opt", balance := 100, apr := 0, minimum_payment := 10,
    is_delinquent := false }

/-- Small debt (balance below 2000) for the recommender. -/
def exDebtSmall1 : SimpleDebt :=
  { id := "s1", name := "Small 1", balance := 500, apr := 5, minimum_payment := 25,
    is_delinquent := false }

/-- Second small debt (balance below 2000) for the recommender. -/
def exDebtSmall2 : SimpleDebt :=
  { id := "s2", name := "Small 2", balance := 800, apr := 15, minimum_payment := 40,
    is_delinquent := false }

/-- Two-debt pair for exercising phase-2 surplus flow: the first is paid off
immediately, the second receives the surplus. -/
def exDebtB : SimpleDebt :=
  { id := "b", name := "Debt B", balance := 300, apr := 0, minimum_payment := 30,
    is_delinquent := false }

/-- Snowball scenario input for the recommender: 15 months, 300 interest. -/
def exScenarioSnowball : PayoffScenario :=
  { scenario_id := "sn", name := "Snowball Strategy", strategy := .snowball,
    scenario_type := .base, monthly_payment := 500, start_date := 0, total_months := 15,
    payoff_date := 450, total_interest := 300, total_paid := 1600, schedule := [],
    debt_summaries := [] }

/-- Avalanche scenario input for the recommender: 12 months (3 fewer than the
snowball scenario), 250 interest. -/
def exScenarioAvalanche : PayoffScenario :=
  { scenario_id := "av", name := "Avalanche Strategy", strategy := .avalanche,
    scenario_type := .base, monthly_payment := 500, start_date := 0, total_months := 12,
    payoff_date := 360, total_interest := 250, total_paid := 1550, schedule := [],
    debt_summaries := [] }

/-- Stressed pay-faster profile (stress level 4). -/
def exProfileStressed : Profile :=
  { primary_goal := .payFaster, stress_level := some 4 }

/-! ## Derived definitions used to state the claims -/

/-- Sum of principal plus interest over a list of schedule rows. -/
def scheduleSumPI (l : List PayoffScheduleItem) : ℚ :=
  (l.map (fun it => it.principal + it.interest)).sum

/-- The data-model invariant of a debt at simulation entry (spec §3:
positive balance and minimum payment, APR in percent; only nonnegativity of
the balance is needed below). -/
def debtValid (d : SimpleDebt) : Prop :=
  0 ≤ d.balance ∧ 0 ≤ d.apr ∧ 0 < d.minimum_payment

/-- Invariant of one working debt maintained by the simulation loop. -/
def wdValid (wd : WorkingDebt) : Prop :=
  0 ≤ wd.remaining_balance ∧ 0 ≤ wd.debt.apr ∧ 0 < wd.debt.minimum_payment
    ∧ (wd.paid_off = true → wd.remaining_balance = 0)

/-- All working debts valid. -/
def workingValid (l : List WorkingDebt) : Prop := ∀ wd ∈ l, wdValid wd

/-- Sum of the remaining balances of a working list. -/
def balSum (l : List WorkingDebt) : ℚ := (l.map (fun wd => wd.remaining_balance)).sum

/-- Sum of the original balances of a working list. -/
def origSum (l : List WorkingDebt) : ℚ := (l.map (fun wd => wd.debt.balance)).sum

/-- Number of debts already marked paid off. -/
def paidCount (l : List WorkingDebt) : ℕ := (l.filter (fun wd => wd.paid_off)).length

/-- Coupling of one debt's working state across two runs of the simulation
(run 2 pays at least as much per month): run 2's balance never exceeds run
1's, and run 2 is paid off whenever run 1 is. -/
def wdCoupled (w1 w2 : WorkingDebt) : Prop :=
  w2.debt = w1.debt ∧ w2.remaining_balance ≤ w1.remaining_balance
    ∧ (w1.paid_off = true → w2.paid_off = true)

/-- The working list right after the minimum-payment phase of the next
simulated month (phase 1, calculation_utils.py lines 133-178). -/
def phase1Working (start_date : ℤ) (s : SimState) : List WorkingDebt :=
  (minimumPhase (s.month + 1) (start_date + 30 * ((s.month + 1 : ℕ) : ℤ)) s.working).1

/-- The schedule rows produced by the minimum-payment phase of the next
simulated month. -/
def phase1Items (start_date : ℤ) (s : SimState) : List PayoffScheduleItem :=
  (minimumPhase (s.month + 1) (start_date + 30 * ((s.month + 1 : ℕ) : ℤ)) s.working).2

/-- The payment remaining after the minimum-payment phase
(`remaining_payment`, calculation_utils.py lines 131 and 160). -/
def phase1Surplus (monthly_payment : ℚ) (start_date : ℤ) (s : SimState) : ℚ :=
  monthly_payment - ((phase1Items start_date s).map (fun it => it.payment)).sum

/-- The single schedule row of the one-month run on `exDebtA`. -/
def exItemA : PayoffScheduleItem :=
  { month := 1, payment_date := 30, debt_id := "a", debt_name := "Debt A",
    payment := 100, principal := 100, interest := 0, remaining_balance := 0 }

/-- The full scenario of the one-month run on `exDebtA` (payment 100 starting
at day 0). -/
def exSummaryA : DebtPayoffSummary :=
  { debt_id := "a", debt_name := "Debt A", original_balance := 100, total_paid := 100,
    total_interest := 0, months_to_payoff := 1, payoff_date := 30 }

/-- The full scenario record of that run. -/
def exScenarioA : PayoffScenario :=
  { scenario_id := "uuid", name := "Snowball Strategy", strategy := .snowball,
    scenario_type := .base, monthly_payment := 100, start_date := 0, total_months := 1,
    payoff_date := 30, total_interest := 0, total_paid := 100, schedule := [exItemA],
    debt_summaries := [exSummaryA] }

/-- Working state of `exDebtA` after the first minimum-payment phase of a
two-debt run. -/
def exWdA1 : WorkingDebt :=
  { debt := exDebtA, remaining_balance := 50, total_paid := 50, total_interest := 0,
    months_to_payoff := 0, paid_off := false }

/-- Working state of `exDebtB` after the first minimum-payment phase of a
two-debt run. -/
def exWdB1 : WorkingDebt :=
  { debt := exDebtB, remaining_balance := 270, total_paid := 30, total_interest := 0,
    months_to_payoff := 0, paid_off := false }

/-- Frame invariant of the store-level simulation: the first `n` cells (the
caller's debt objects) are still `base`, and every reference the simulation
writes through (working dicts and schedule items) lies at or beyond `n`. -/
def storeInv (n : ℕ) (base : List Cell) (s : HeapSimState) : Prop :=
  n ≤ s.store.length ∧ s.store.take n = base
    ∧ (∀ r ∈ s.wdRefs, n ≤ r) ∧ (∀ r ∈ s.itemRefs_rev, n ≤ r)

/-- The payoff snap of calculation_utils.py lines 163-164 and 194-195: a
balance at or below the 0.01 threshold is replaced by zero. -/
def snap (x : ℚ) : ℚ := if x ≤ payoffThreshold then 0 else x

/-- The payment made by the minimum-payment step
(`min(minimum_payment, balance + interest)`, calculation_utils.py line 145). -/
def pmPay (wd : WorkingDebt) : ℚ :=
  min wd.debt.minimum_payment
    (wd.remaining_balance + calculate_monthly_interest wd.remaining_balance wd.debt.apr)

/-- The interest portion of that payment (line 151). -/
def pmInterest (wd : WorkingDebt) : ℚ :=
  min (calculate_monthly_interest wd.remaining_balance wd.debt.apr) (pmPay wd)

/-- The balance after the minimum-payment step, before snapping (line 155). -/
def pmNewBalance (wd : WorkingDebt) : ℚ :=
  wd.remaining_balance - (pmPay wd - pmInterest wd)

/-- The extra principal paid in phase 2 (0 when no target debt was found). -/
def extraAmount : Option (SimpleDebt × ℚ × ℚ) → ℚ
  | none => 0
  | some info => info.2.1

/-- Accounting invariant of the simulation loop: the schedule's
principal-plus-interest total equals the running `total_paid`, and the
principal collected so far (`total_paid − total_interest`) accounts for the
original balances up to the remaining balances and at most 0.01 of written-off
residue per debt already paid off. -/
def simAccounting (s : SimState) : Prop :=
  workingValid s.working
  ∧ scheduleSumPI s.schedule_rev = s.total_paid
  ∧ s.total_paid - s.total_interest + balSum s.working ≤ origSum s.working
  ∧ origSum s.working ≤ s.total_paid - s.total_interest + balSum s.working
      + payoffThreshold * (paidCount s.working : ℚ)

/-- Coupling of two whole simulation states (run 2 pays at least as much per
month as run 1). -/
def stateCoupled (s1 s2 : SimState) : Prop :=
  s1.month = s2.month ∧ List.Forall₂ wdCoupled s1.working s2.working
    ∧ s2.total_interest ≤ s1.total_interest

/-- The working state of `exDebtA` at the end of its one-month run. -/
def exWdADone : WorkingDebt :=
  { debt := exDebtA, remaining_balance := 0, total_paid := 100, total_interest := 0,
    months_to_payoff := 1, paid_off := true }

/-- The final loop state of the one-month run on `exDebtA`. -/
def exStateA : SimState :=
  { working := [exWdADone], schedule_rev := [exItemA], month := 1, total_interest := 0,
    total_paid := 100 }

/-! ## Theorems

First a few list-level helper lemmas shared by several claims. -/

/-- With pairwise-distinct ids, `find?` by id returns the unique member
carrying that id. -/
theorem find_id_eq_of_nodup (l : List SimpleDebt)
    (h : (l.map (fun d => d.id)).Nodup) (d0 : SimpleDebt) (hm : d0 ∈ l) (c : String)
    (hid : d0.id = c) : l.find? (fun d => d.id == c) = some d0 := by
  induction l with
  | nil => cases hm
  | cons d ds ih =>
    simp only [List.map_cons, List.nodup_cons, List.mem_map] at h
    rcases List.mem_cons.mp hm with rfl | hmem
    · exact List.find?_cons_of_pos ds (by simp [hid])
    · have hne : ¬ d.id = c := by
        intro hdc
        exact h.1 ⟨d0, hmem, by rw [hid, hdc]⟩
      rw [List.find?_cons_of_neg ds (by simp [hne])]
      exact ih h.2 hmem

/-- With pairwise-distinct ids the Python-dict lookup finds the unique debt
with the requested id. -/
theorem debtMapFind_eq_of_nodup (debts : List SimpleDebt)
    (h : (debts.map (fun d => d.id)).Nodup) (d0 : SimpleDebt) (hm : d0 ∈ debts)
    (c : String) (hid : d0.id = c) : debtMapFind debts c = some d0 := by
  unfold debtMapFind
  refine find_id_eq_of_nodup debts.reverse ?_ d0 (by simpa using hm) c hid
  rw [List.map_reverse]
  exact List.nodup_reverse.mpr h

/-- The Python-dict lookup misses when no debt carries the id. -/
theorem debtMapFind_eq_none (debts : List SimpleDebt) (c : String)
    (h : ∀ d ∈ debts, d.id ≠ c) : debtMapFind debts c = none := by
  unfold debtMapFind
  rw [List.find?_eq_none]
  intro d hd
  simp only [beq_iff_eq]
  exact h d (by simpa using hd)

/-- Splitting a filter on `id == c || q ·` off a list with pairwise-distinct
ids: the unique debt with id `c` moves to the front. -/
theorem filter_id_cons_perm (l : List SimpleDebt) (c : String) (q : SimpleDebt → Bool)
    (d0 : SimpleDebt) (hd : (l.map (fun d => d.id)).Nodup) (hm : d0 ∈ l)
    (hid : d0.id = c) (hq : q d0 = false) :
    (l.filter (fun d => (d.id == c) || q d)).Perm (d0 :: l.filter q) := by
  induction l with
  | nil => cases hm
  | cons d ds ih =>
    simp only [List.map_cons, List.nodup_cons, List.mem_map] at hd
    rcases List.mem_cons.mp hm with rfl | hmem
    · have hfe : ds.filter (fun d => (d.id == c) || q d) = ds.filter q := by
        refine List.filter_congr ?_
        intro x hx
        have hne : ¬ x.id = c := by
          intro hxc
          exact hd.1 ⟨x, hx, by rw [hid, hxc]⟩
        simp [hne]
      simp only [List.filter_cons]
      rw [if_pos (by simp [hid] : (d0.id == c || q d0) = true)]
      rw [if_neg (by simp [hq] : ¬ q d0 = true)]
      rw [hfe]
    · have hne : ¬ d.id = c := by
        intro hdc
        exact hd.1 ⟨d0, hmem, by rw [hid, hdc]⟩
      have hIH := ih hd.2 hmem
      have hpd : (d.id == c || q d) = q d := by simp [hne]
      simp only [List.filter_cons]
      rw [hpd]
      by_cases hqd : q d = true
      · rw [if_pos hqd, if_pos hqd]
        exact (hIH.cons d).trans (List.Perm.swap d0 d _)
      · rw [if_neg hqd, if_neg hqd]
        exact hIH

/-- The custom-order prefix built by `filterMap` over the dict lookup is a
permutation of the debts whose id occurs in the custom order (requires
pairwise-distinct debt ids and a duplicate-free custom order). -/
theorem filterMap_debtMapFind_perm (debts : List SimpleDebt) :
    ∀ co : List String, (debts.map (fun d => d.id)).Nodup → co.Nodup →
      (co.filterMap (fun i => debtMapFind debts i)).Perm
        (debts.filter (fun d => co.contains d.id)) := by
  intro co
  induction co with
  | nil =>
    intro _ _
    simp [List.filterMap_nil]
  | cons c rest ih =>
    intro hd hco
    simp only [List.nodup_cons] at hco
    have hfe : debts.filter (fun d => (c :: rest).contains d.id)
        = debts.filter (fun d => (d.id == c) || rest.contains d.id) := by
      refine List.filter_congr ?_
      intro x _
      by_cases hxc : x.id = c
      · simp [List.contains_cons, hxc]
      · simp [List.contains_cons, hxc, Ne.symm hxc]
    rw [hfe]
    by_cases hex : ∃ d0 ∈ debts, d0.id = c
    · obtain ⟨d0, hm, hid⟩ := hex
      rw [List.filterMap_cons, debtMapFind_eq_of_nodup debts hd d0 hm c hid]
      have hq : rest.contains d0.id = false := by
        rw [hid]
        simpa using hco.1
      refine ((ih hd hco.2).cons d0).trans ?_
      exact (filter_id_cons_perm debts c (fun d => rest.contains d.id) d0 hd hm hid hq).symm
    · push_neg at hex
      rw [List.filterMap_cons, debtMapFind_eq_none debts c hex]
      have hfe2 : debts.filter (fun d => (d.id == c) || rest.contains d.id)
          = debts.filter (fun d => rest.contains d.id) := by
        refine List.filter_congr ?_
        intro x hx
        simp [hex x hx]
      rw [hfe2]
      exact ih hd hco.2

/-- Helper: with pairwise-distinct debt ids and a duplicate-free custom order,
`order_debts_by_strategy` permutes its input (shared by several claims). -/
theorem order_debts_by_strategy_perm (debts : List SimpleDebt) (strategy : PayoffStrategy)
    (custom_order : List String) (hd : (debts.map (fun d => d.id)).Nodup)
    (hco : custom_order.Nodup) :
    (order_debts_by_strategy debts strategy custom_order).Perm debts := by
  cases strategy with
  | snowball => exact List.perm_insertionSort _ debts
  | avalanche => exact List.perm_insertionSort _ debts
  | custom =>
    unfold order_debts_by_strategy
    by_cases hempty : custom_order = []
    · rw [if_pos hempty]
      exact List.perm_insertionSort _ debts
    · rw [if_neg hempty]
      have h1 := filterMap_debtMapFind_perm debts custom_order hd hco
      have h2 : (List.insertionSort (fun a b => a.balance ≤ b.balance)
            (debts.filter (fun d => ! custom_order.contains d.id))).Perm
          (debts.filter (fun d => ! custom_order.contains d.id)) :=
        List.perm_insertionSort _ _
      refine (h1.append h2).trans ?_
      exact List.filter_append_perm (fun d => custom_order.contains d.id) debts

/-- C5 (amended): for debts with pairwise-distinct ids and a duplicate-free
custom order, `order_debts_by_strategy` returns a permutation of its input for
every strategy and never fails (it is a total function).  Without those two
conditions the permutation property is false, see the counterexample. -/
theorem C5_order_debts_perm (debts : List SimpleDebt) (strategy : PayoffStrategy)
    (custom_order : List String) (hd : (debts.map (fun d => d.id)).Nodup)
    (hco : custom_order.Nodup) :
    (order_debts_by_strategy debts strategy custom_order).Perm debts :=
  order_debts_by_strategy_perm debts strategy custom_order hd hco

/-- C5 witness: the amended permutation theorem applied to a concrete
two-debt list with a concrete custom order. -/
theorem C5_order_debts_perm_witness :
    (([exDebtA, exDebtB].map (fun d => d.id)).Nodup ∧ (["b", "a"] : List String).Nodup)
    ∧ (order_debts_by_strategy [exDebtA, exDebtB] PayoffStrategy.custom ["b", "a"]).Perm
        [exDebtA, exDebtB] :=
  ⟨⟨by decide, by decide⟩,
    C5_order_debts_perm [exDebtA, exDebtB] PayoffStrategy.custom ["b", "a"]
      (by decide) (by decide)⟩

/-- C5 counterexample: with a duplicated id in `custom_order` the claimed
"always returns a permutation of the input" is false — the single debt with
id "a" is emitted twice (the source appends `debt_map[debt_id]` once per
occurrence of the id, calculation_utils.py lines 56-58). -/
theorem C5_counterexample :
    ¬ (order_debts_by_strategy [exDebtA] PayoffStrategy.custom ["a", "a"]).Perm [exDebtA] := by
  intro h
  have hl := h.length_eq
  exact absurd hl (by decide)

/-- C4 (amended): a monthly payment below the sum of minimum payments fails
immediately with the insufficient-payment `ValueError` and no scenario is
produced; the error message names the offered payment and the required total
of minimums (from which the shortfall is derivable), not the shortfall amount
itself. -/
theorem C4_insufficient_payment (debts : List SimpleDebt) (strategy : PayoffStrategy)
    (monthly_payment : ℚ) (start_date : ℤ) (custom_order : List String)
    (scenario_name : Option String) (hne : debts ≠ [])
    (hlt : monthly_payment < (debts.map (fun d => d.minimum_payment)).sum) :
    simulate_payoff_scenario debts strategy monthly_payment start_date custom_order scenario_name
      = .error (.insufficientPayment monthly_payment ((debts.map (fun d => d.minimum_payment)).sum))
    ∧ (SimError.insufficientPayment monthly_payment
        ((debts.map (fun d => d.minimum_payment)).sum)).messageAmounts
      = [monthly_payment, (debts.map (fun d => d.minimum_payment)).sum] := by
  constructor
  · unfold simulate_payoff_scenario runSimulation
    rw [if_neg hne, if_pos hlt]
    rfl
  · rfl

/-- C4 witness: the insufficient-payment theorem at a concrete input (payment
50 against a 120 minimum). -/
theorem C4_insufficient_payment_witness :
    ([exDebtShortfall] ≠ [] ∧ (50 : ℚ) < (([exDebtShortfall].map (fun d => d.minimum_payment)).sum))
    ∧ (simulate_payoff_scenario [exDebtShortfall] PayoffStrategy.snowball 50 0 [] none
        = .error (.insufficientPayment 50 (([exDebtShortfall].map (fun d => d.minimum_payment)).sum))
      ∧ (SimError.insufficientPayment 50
          (([exDebtShortfall].map (fun d => d.minimum_payment)).sum)).messageAmounts
        = [50, ([exDebtShortfall].map (fun d => d.minimum_payment)).sum]) :=
  ⟨⟨by decide, by with_unfolding_all decide⟩,
    C4_insufficient_payment [exDebtShortfall] PayoffStrategy.snowball 50 0 [] none
      (by decide) (by with_unfolding_all decide)⟩

/-- C4 counterexample: the claim as stated — that the error message names the
exact shortfall amount (sum of minimums minus the offered payment) — is false:
at payment 50 against minimums totalling 120 the message interpolates 50 and
120 but not the shortfall 70 (calculation_utils.py lines 96-99 format the
payment and the total of minimums only). -/
theorem C4_counterexample :
    simulate_payoff_scenario [exDebtShortfall] PayoffStrategy.snowball 50 0 [] none
      = .error (.insufficientPayment 50 120)
    ∧ ¬ ((120 - 50 : ℚ) ∈ (SimError.insufficientPayment 50 120).messageAmounts) := by
  constructor
  · with_unfolding_all rfl
  · with_unfolding_all decide

/-- C8 (amended): under the pay-faster goal the recommender prefers avalanche
when avalanche is STRICTLY more than 3 months faster than snowball; at 3 or
fewer months of advantage it prefers snowball exactly when the effective
stress level is at least 4 and at least 2 debts have balance below 2000, and
avalanche otherwise. -/
theorem C8_pay_faster_decision (profile : Profile) (debts : List SimpleDebt)
    (sb av : PayoffScenario) (hgoal : profile.primary_goal = PrimaryGoal.payFaster) :
    (3 < (sb.total_months : ℤ) - (av.total_months : ℤ) →
      determine_best_strategy profile debts sb av = PayoffStrategy.avalanche)
    ∧ ((sb.total_months : ℤ) - (av.total_months : ℤ) ≤ 3 →
        4 ≤ effectiveStress profile →
        2 ≤ (debts.filter (fun d => d.balance < 2000)).length →
        determine_best_strategy profile debts sb av = PayoffStrategy.snowball)
    ∧ ((sb.total_months : ℤ) - (av.total_months : ℤ) ≤ 3 →
        ¬ (4 ≤ effectiveStress profile
            ∧ 2 ≤ (debts.filter (fun d => d.balance < 2000)).length) →
        determine_best_strategy profile debts sb av = PayoffStrategy.avalanche) := by
  unfold determine_best_strategy
  rw [hgoal]
  simp only [PrimaryGoal.value, if_true]
  refine ⟨?_, ?_, ?_⟩
  · intro hlt
    rw [if_pos hlt]
  · intro hle hstress hsmall
    rw [if_neg (by omega), if_pos ⟨hstress, hsmall⟩]
  · intro hle hnot
    rw [if_neg (by omega), if_neg hnot]

/-- C8 witness: the amended decision theorem at a concrete stressed profile
with two small debts and scenarios 15 vs 12 months. -/
theorem C8_pay_faster_decision_witness :
    (exProfileStressed.primary_goal = PrimaryGoal.payFaster)
    ∧ ((3 < (exScenarioSnowball.total_months : ℤ) - (exScenarioAvalanche.total_months : ℤ) →
        determine_best_strategy exProfileStressed [exDebtSmall1, exDebtSmall2]
          exScenarioSnowball exScenarioAvalanche = PayoffStrategy.avalanche)
      ∧ ((exScenarioSnowball.total_months : ℤ) - (exScenarioAvalanche.total_months : ℤ) ≤ 3 →
          4 ≤ effectiveStress exProfileStressed →
          2 ≤ ([exDebtSmall1, exDebtSmall2].filter (fun d => d.balance < 2000)).length →
          determine_best_strategy exProfileStressed [exDebtSmall1, exDebtSmall2]
            exScenarioSnowball exScenarioAvalanche = PayoffStrategy.snowball)
      ∧ ((exScenarioSnowball.total_months : ℤ) - (exScenarioAvalanche.total_months : ℤ) ≤ 3 →
          ¬ (4 ≤ effectiveStress exProfileStressed
              ∧ 2 ≤ ([exDebtSmall1, exDebtSmall2].filter (fun d => d.balance < 2000)).length) →
          determine_best_strategy exProfileStressed [exDebtSmall1, exDebtSmall2]
            exScenarioSnowball exScenarioAvalanche = PayoffStrategy.avalanche)) :=
  ⟨rfl, C8_pay_faster_decision exProfileStressed [exDebtSmall1, exDebtSmall2]
    exScenarioSnowball exScenarioAvalanche rfl⟩

/-- C8 counterexample: the claim as stated says avalanche is preferred
whenever it is at least 3 months faster (snowball minus avalanche months ≥ 3);
the source (recommendations/routes.py line 211) tests the STRICT inequality
`time_difference > 3`, so at exactly 3 months of advantage with stress 4 and
two small debts the code recommends snowball, not avalanche. -/
theorem C8_counterexample :
    determine_best_strategy exProfileStressed [exDebtSmall1, exDebtSmall2]
        exScenarioSnowball exScenarioAvalanche = PayoffStrategy.snowball
    ∧ (3 : ℤ) ≤ (exScenarioSnowball.total_months : ℤ) - (exScenarioAvalanche.total_months : ℤ)
    ∧ exProfileStressed.primary_goal.value = "pay-faster" := by
  refine ⟨?_, by with_unfolding_all decide, rfl⟩
  with_unfolding_all decide

/-- One month iteration always advances the month counter by exactly one. -/
theorem simulateMonth_month (monthly_payment : ℚ) (start_date : ℤ) (s : SimState) :
    (simulateMonth monthly_payment start_date s).month = s.month + 1 := by
  simp only [simulateMonth]
  split
  · split
    · rfl
    · rfl
  · rfl

/-- The month loop advances the month counter by at most its fuel. -/
theorem runLoop_month_le (monthly_payment : ℚ) (start_date : ℤ) :
    ∀ (fuel : ℕ) (s : SimState),
      (runLoop monthly_payment start_date fuel s).month ≤ s.month + fuel := by
  intro fuel
  induction fuel with
  | zero =>
    intro s
    simp [runLoop]
  | succ n ih =>
    intro s
    unfold runLoop
    split
    · refine (ih (simulateMonth monthly_payment start_date s)).trans ?_
      rw [simulateMonth_month]
      omega
    · omega

/-- C1 (amended): when the preconditions hold (non-empty debts, payment
covering the minimums), `simulate_payoff_scenario` ALWAYS returns a normal
scenario with `total_months ≤ 600`; reaching the 600-month ceiling with unpaid
balances does not raise any error — the loop at calculation_utils.py line 127
simply exits and lines 232-245 return the silently truncated scenario. -/
theorem C1_truncates_at_ceiling (debts : List SimpleDebt) (strategy : PayoffStrategy)
    (monthly_payment : ℚ) (start_date : ℤ) (custom_order : List String)
    (scenario_name : Option String) (hne : debts ≠ [])
    (hge : (debts.map (fun d => d.minimum_payment)).sum ≤ monthly_payment) :
    ∃ sc, simulate_payoff_scenario debts strategy monthly_payment start_date
        custom_order scenario_name = .ok sc
      ∧ sc.total_months ≤ MAX_MONTHS := by
  unfold simulate_payoff_scenario runSimulation
  rw [if_neg hne, if_neg (not_lt.mpr hge)]
  refine ⟨_, rfl, ?_⟩
  show (runLoop monthly_payment start_date MAX_MONTHS
    (initSimState (order_debts_by_strategy debts strategy custom_order))).month ≤ MAX_MONTHS
  have := runLoop_month_le monthly_payment start_date MAX_MONTHS
    (initSimState (order_debts_by_strategy debts strategy custom_order))
  simpa [initSimState] using this

/-- C1 witness: the amended theorem at a one-debt input satisfying both
preconditions. -/
theorem C1_truncates_at_ceiling_witness :
    ([exDebtA] ≠ []
      ∧ ([exDebtA].map (fun d => d.minimum_payment)).sum ≤ (100 : ℚ))
    ∧ ∃ sc, simulate_payoff_scenario [exDebtA] PayoffStrategy.snowball 100 0 [] none
          = .ok sc
        ∧ sc.total_months ≤ MAX_MONTHS :=
  ⟨⟨by decide, by with_unfolding_all decide⟩,
    C1_truncates_at_ceiling [exDebtA] PayoffStrategy.snowball 100 0 [] none
      (by decide) (by with_unfolding_all decide)⟩

set_option maxRecDepth 100000 in
/-- C1 counterexample: a debt whose minimum payment exactly equals its monthly
interest (balance 1200 at 100% APR, payment 100) satisfies the preconditions
but never amortizes; after 600 months the loop stops with the balance still at
1200 and `simulate_payoff_scenario` returns a NORMAL scenario
(`total_months = 600`, the debt never marked paid off), refuting the claim
that a fatal "scenario too long" error is surfaced instead. -/
theorem C1_counterexample :
    (simulate_payoff_scenario [exDebtOverrun] PayoffStrategy.snowball 100 0 [] none).isOk = true
    ∧ (runSimulation [exDebtOverrun] PayoffStrategy.snowball 100 0 []).map
        (fun s => (s.month, s.working.map (fun w => (w.remaining_balance, w.paid_off))))
      = .ok (600, [(1200, false)]) := by
  constructor
  · with_unfolding_all rfl
  · with_unfolding_all rfl

/-- Every schedule row emitted by the minimum-payment step splits its payment
exactly into principal plus interest and reports a nonnegative balance. -/
theorem payMinimumStep_item_inv (m : ℕ) (dt : ℤ) (wd : WorkingDebt) :
    (payMinimumStep m dt wd).2.principal + (payMinimumStep m dt wd).2.interest
      = (payMinimumStep m dt wd).2.payment
    ∧ 0 ≤ (payMinimumStep m dt wd).2.remaining_balance := by
  simp only [payMinimumStep]
  constructor
  · ring
  · exact le_max_left 0 _

/-- All phase-1 rows satisfy the schedule-row invariant. -/
theorem minimumPhase_items_inv (m : ℕ) (dt : ℤ) (l : List WorkingDebt) :
    ∀ it ∈ (minimumPhase m dt l).2,
      it.principal + it.interest = it.payment ∧ 0 ≤ it.remaining_balance := by
  induction l with
  | nil =>
    intro it h
    simp [minimumPhase] at h
  | cons wd rest ih =>
    intro it h
    by_cases hp : wd.paid_off = true
    · rw [minimumPhase, if_pos hp] at h
      exact ih it h
    · rw [minimumPhase, if_neg hp] at h
      rcases List.mem_cons.mp h with rfl | h2
      · exact payMinimumStep_item_inv m dt wd
      · exact ih it h2

/-- The in-place surplus update preserves the schedule-row invariant: payment
and principal grow by the same amount, and the stored balance is clamped at
zero. -/
theorem updateScheduleForExtra_inv (debt_id : String) (m : ℕ) (e b : ℚ)
    (l : List PayoffScheduleItem)
    (h : ∀ it ∈ l, it.principal + it.interest = it.payment ∧ 0 ≤ it.remaining_balance) :
    ∀ it ∈ updateScheduleForExtra debt_id m e b l,
      it.principal + it.interest = it.payment ∧ 0 ≤ it.remaining_balance := by
  induction l with
  | nil =>
    intro it hit
    simp [updateScheduleForExtra] at hit
  | cons item rest ih =>
    intro it hit
    rw [updateScheduleForExtra] at hit
    by_cases hm : (item.debt_id == debt_id && item.month == m) = true
    · rw [if_pos hm] at hit
      rcases List.mem_cons.mp hit with rfl | h2
      · refine ⟨?_, le_max_left 0 _⟩
        have := (h item (List.mem_cons_self item rest)).1
        simp only
        linarith
      · exact h it (List.mem_cons_of_mem item h2)
    · rw [if_neg hm] at hit
      rcases List.mem_cons.mp hit with rfl | h2
      · exact h it (List.mem_cons_self it rest)
      · exact ih (fun x hx => h x (List.mem_cons_of_mem item hx)) it h2

/-- One simulated month preserves the schedule-row invariant over the whole
accumulated schedule. -/
theorem simulateMonth_schedule_inv (mp : ℚ) (sd : ℤ) (s : SimState)
    (h : ∀ it ∈ s.schedule_rev,
      it.principal + it.interest = it.payment ∧ 0 ≤ it.remaining_balance) :
    ∀ it ∈ (simulateMonth mp sd s).schedule_rev,
      it.principal + it.interest = it.payment ∧ 0 ≤ it.remaining_balance := by
  have hbase : ∀ it ∈ ((minimumPhase (s.month + 1) (sd + 30 * ((s.month + 1 : ℕ) : ℤ))
        s.working).2).reverse ++ s.schedule_rev,
      it.principal + it.interest = it.payment ∧ 0 ≤ it.remaining_balance := by
    intro it hit
    rcases List.mem_append.mp hit with h1 | h2
    · exact minimumPhase_items_inv _ _ _ it (List.mem_reverse.mp h1)
    · exact h it h2
  simp only [simulateMonth]
  split
  · split
    · intro it hit
      exact updateScheduleForExtra_inv _ _ _ _ _ hbase it hit
    · exact hbase
  · exact hbase

/-- The month loop preserves the schedule-row invariant. -/
theorem runLoop_schedule_inv (mp : ℚ) (sd : ℤ) :
    ∀ (fuel : ℕ) (s : SimState),
      (∀ it ∈ s.schedule_rev,
        it.principal + it.interest = it.payment ∧ 0 ≤ it.remaining_balance) →
      ∀ it ∈ (runLoop mp sd fuel s).schedule_rev,
        it.principal + it.interest = it.payment ∧ 0 ≤ it.remaining_balance := by
  intro fuel
  induction fuel with
  | zero =>
    intro s h
    simpa [runLoop] using h
  | succ n ih =>
    intro s h
    rw [runLoop]
    split
    · exact ih _ (simulateMonth_schedule_inv mp sd s h)
    · exact h

/-- A successful validation-plus-loop run only ever accumulates rows
satisfying the invariant. -/
theorem runSimulation_ok_schedule_inv (debts : List SimpleDebt) (strategy : PayoffStrategy)
    (mp : ℚ) (sd : ℤ) (co : List String) (st : SimState)
    (h : runSimulation debts strategy mp sd co = .ok st) :
    ∀ it ∈ st.schedule_rev,
      it.principal + it.interest = it.payment ∧ 0 ≤ it.remaining_balance := by
  simp only [runSimulation] at h
  split at h
  · exact absurd h (by simp)
  · split at h
    · exact absurd h (by simp)
    · injection h with h
      subst h
      exact runLoop_schedule_inv mp sd MAX_MONTHS _ (by simp [initSimState])

/-- C7: every schedule row of a returned scenario satisfies
`principal + interest = payment` (exactly, in the rational model) and
`remaining_balance ≥ 0`, including the rows rewritten in place by the surplus
phase of the same month. -/
theorem C7_schedule_row_invariant (debts : List SimpleDebt) (strategy : PayoffStrategy)
    (mp : ℚ) (sd : ℤ) (co : List String) (name : Option String) (sc : PayoffScenario)
    (h : simulate_payoff_scenario debts strategy mp sd co name = .ok sc) :
    ∀ it ∈ sc.schedule,
      it.principal + it.interest = it.payment ∧ 0 ≤ it.remaining_balance := by
  unfold simulate_payoff_scenario at h
  cases hrs : runSimulation debts strategy mp sd co with
  | error e =>
    rw [hrs] at h
    exact absurd h (by simp [Except.map])
  | ok st =>
    rw [hrs] at h
    simp only [Except.map] at h
    injection h with h
    subst h
    intro it hit
    have hmem : it ∈ st.schedule_rev := by
      have : it ∈ st.schedule_rev.reverse := by simpa [buildScenario] using hit
      exact List.mem_reverse.mp this
    exact runSimulation_ok_schedule_inv debts strategy mp sd co st hrs it hmem

/-- C7 witness: the invariant theorem applied to the concrete one-month run on
`exDebtA` and its single schedule row. -/
theorem C7_schedule_row_invariant_witness :
    (simulate_payoff_scenario [exDebtA] PayoffStrategy.snowball 100 0 [] none
      = .ok exScenarioA)
    ∧ exItemA ∈ exScenarioA.schedule
    ∧ (exItemA.principal + exItemA.interest = exItemA.payment
        ∧ 0 ≤ exItemA.remaining_balance) :=
  ⟨by with_unfolding_all rfl, by simp [exScenarioA],
    C7_schedule_row_invariant [exDebtA] PayoffStrategy.snowball 100 0 [] none exScenarioA
      (by with_unfolding_all rfl) exItemA (by simp [exScenarioA])⟩

/-- Phase 2 on a working list whose first not-yet-paid-off debt is `t`:
exactly `t` receives the surplus (capped at its balance) and every other debt
is untouched. -/
theorem applyExtra_split (m : ℕ) (e : ℚ) (pre : List WorkingDebt) (t : WorkingDebt)
    (post : List WorkingDebt) (hpre : ∀ wd ∈ pre, wd.paid_off = true)
    (ht : t.paid_off = false) :
    applyExtra m e (pre ++ t :: post)
      = (pre ++ extraUpdatedDebt m e t :: post,
         some (t.debt, min e t.remaining_balance,
           (extraUpdatedDebt m e t).remaining_balance)) := by
  induction pre with
  | nil =>
    simp only [List.nil_append]
    rw [applyExtra, if_neg (by simp [ht])]
  | cons wd rest ih =>
    have hwd := hpre wd (List.mem_cons_self wd rest)
    simp only [List.cons_append]
    rw [applyExtra, if_pos hwd, ih (fun x hx => hpre x (List.mem_cons_of_mem wd hx))]

/-- C6 (amended): in every simulated month, whenever the remaining payment
after the minimum-payment phase EXCEEDS the 0.01 threshold, the whole surplus
is applied as extra principal to exactly the first not-yet-paid-off debt in
strategy order (capped at its remaining balance via `extraUpdatedDebt`), and
no other debt's working state changes — the surplus is never split. -/
theorem C6_surplus_single_target (mp : ℚ) (sd : ℤ) (s : SimState)
    (pre : List WorkingDebt) (t : WorkingDebt) (post : List WorkingDebt)
    (hsplit : phase1Working sd s = pre ++ t :: post)
    (hpre : ∀ wd ∈ pre, wd.paid_off = true)
    (ht : t.paid_off = false)
    (hrp : surplusThreshold < phase1Surplus mp sd s) :
    (simulateMonth mp sd s).working
      = pre ++ extraUpdatedDebt (s.month + 1) (phase1Surplus mp sd s) t :: post := by
  have hrp' : mp - ((List.map (fun it => it.payment)
      (minimumPhase (s.month + 1) (sd + 30 * ((s.month + 1 : ℕ) : ℤ)) s.working).2).sum)
      > surplusThreshold := by
    simpa [phase1Surplus, phase1Items] using hrp
  have hw : (minimumPhase (s.month + 1) (sd + 30 * ((s.month + 1 : ℕ) : ℤ)) s.working).1
      = pre ++ t :: post := by
    simpa [phase1Working] using hsplit
  have hsurp : phase1Surplus mp sd s
      = mp - ((List.map (fun it => it.payment)
          (minimumPhase (s.month + 1) (sd + 30 * ((s.month + 1 : ℕ) : ℤ)) s.working).2).sum) := by
    simp [phase1Surplus, phase1Items]
  simp only [simulateMonth]
  rw [if_pos hrp', hw, applyExtra_split _ _ pre t post hpre ht, hsurp]

/-- C6 witness: the single-target theorem at a concrete two-debt month with a
surplus of 20: the first debt (balance 50 after its minimum payment) receives
the whole surplus, the second is untouched. -/
theorem C6_surplus_single_target_witness :
    (phase1Working 0 (initSimState [exDebtA, exDebtB]) = [] ++ exWdA1 :: [exWdB1]
      ∧ (∀ wd ∈ ([] : List WorkingDebt), wd.paid_off = true)
      ∧ exWdA1.paid_off = false
      ∧ surplusThreshold < phase1Surplus 100 0 (initSimState [exDebtA, exDebtB]))
    ∧ (simulateMonth 100 0 (initSimState [exDebtA, exDebtB])).working
        = [] ++ extraUpdatedDebt ((initSimState [exDebtA, exDebtB]).month + 1)
            (phase1Surplus 100 0 (initSimState [exDebtA, exDebtB])) exWdA1 :: [exWdB1] :=
  ⟨⟨by with_unfolding_all decide, by simp, rfl, by with_unfolding_all decide⟩,
    C6_surplus_single_target 100 0 (initSimState [exDebtA, exDebtB]) [] exWdA1 [exWdB1]
      (by with_unfolding_all decide) (by simp) rfl (by with_unfolding_all decide)⟩

/-- C6 counterexample: the claim as stated triggers on any POSITIVE surplus,
but the source (calculation_utils.py line 181) requires
`remaining_payment > 0.01`.  With balance 1000 at 0% APR, minimum 99.995 and
payment 100, month 1 leaves a surplus of 0.005 > 0, yet no extra principal is
applied: the target's balance stays 900.005 instead of dropping to
1000 − 99.995 − 0.005 = 900 as the claim requires. -/
theorem C6_counterexample :
    (0 : ℚ) < phase1Surplus 100 0 (initSimState [exDebtSurplus])
    ∧ (simulateMonth 100 0 (initSimState [exDebtSurplus])).working.map
        (fun wd => wd.remaining_balance) = [900.005]
    ∧ (900.005 : ℚ) ≠ 1000 - 99.995 - phase1Surplus 100 0 (initSimState [exDebtSurplus]) :=
  ⟨by with_unfolding_all decide, by with_unfolding_all rfl, by with_unfolding_all decide⟩

/-- With a non-empty debt list the simulator never raises the empty-debts
error. -/
theorem simulate_ne_noDebts (debts : List SimpleDebt) (strategy : PayoffStrategy)
    (mp : ℚ) (sd : ℤ) (co : List String) (name : Option String) (hne : debts ≠ []) :
    simulate_payoff_scenario debts strategy mp sd co name ≠ .error .noDebts := by
  simp only [simulate_payoff_scenario, runSimulation]
  rw [if_neg hne]
  split
  · simp [Except.map]
  · simp [Except.map]

/-- The source optimizer loop and the claim's transcription agree iteration by
iteration for a non-empty debt list (the only divergence between the two is
the impossible empty-debts failure arm). -/
theorem optimizeLoop_eq_claim (debts : List SimpleDebt) (strategy : PayoffStrategy)
    (target_months : ℤ) (start_date : ℤ) (hne : debts ≠ []) :
    ∀ (fuel : ℕ) (low high : ℚ),
      optimizeLoop debts strategy target_months start_date fuel low high
        = optimizeClaimLoop debts strategy target_months start_date fuel low high := by
  intro fuel
  induction fuel with
  | zero =>
    intro low high
    rfl
  | succ n ih =>
    intro low high
    rw [optimizeLoop, optimizeClaimLoop]
    cases hsim : simulate_payoff_scenario debts strategy ((low + high) / 2) start_date [] none with
    | ok scenario =>
      simp only [ih]
    | error e =>
      cases e with
      | noDebts =>
        exact absurd hsim (simulate_ne_noDebts debts strategy _ start_date [] none hne)
      | insufficientPayment p m =>
        simp only [ih]

/-- C9: for every non-empty debt list, `_optimize_for_target_months` computes
exactly the algorithm the claim describes: binary search on
`[sum of minimum payments, sum of balances]` for at most 50 iterations with a
$1 bracket tolerance, returning the midpoint immediately when the simulated
month count is within 1 of the target, raising the lower bound when the
simulated months exceed the target or the simulation fails for a too-low
payment, lowering the upper bound when the simulated months fall below the
target, and otherwise returning the midpoint of the final bracket. -/
theorem C9_optimizer_matches_claim (debts : List SimpleDebt) (strategy : PayoffStrategy)
    (target_months : ℤ) (start_date : ℤ) (hne : debts ≠ []) :
    optimize_for_target_months debts strategy target_months start_date
      = optimizeTargetMonthsClaim debts strategy target_months start_date := by
  unfold optimize_for_target_months optimizeTargetMonthsClaim
  exact optimizeLoop_eq_claim debts strategy target_months start_date hne 50 _ _

/-- C9 witness: the agreement theorem at a concrete one-debt input. -/
theorem C9_optimizer_matches_claim_witness :
    ([exDebtOpt] ≠ [])
    ∧ optimize_for_target_months [exDebtOpt] PayoffStrategy.snowball 10 0
        = optimizeTargetMonthsClaim [exDebtOpt] PayoffStrategy.snowball 10 0 :=
  ⟨by decide, C9_optimizer_matches_claim [exDebtOpt] PayoffStrategy.snowball 10 0 (by decide)⟩

/-- Writing at or beyond position `r ≥ n` leaves the first `n` elements
untouched. -/
theorem take_set_of_le {α : Type} (c : α) :
    ∀ (l : List α) (n r : ℕ), n ≤ r → (l.set r c).take n = l.take n := by
  intro l
  induction l with
  | nil =>
    intro n r h
    rfl
  | cons a as ih =>
    intro n r h
    cases r with
    | zero =>
      have hn : n = 0 := Nat.le_zero.mp h
      subst hn
      rfl
    | succ r' =>
      cases n with
      | zero => rfl
      | succ n' =>
        simp only [List.set_cons_succ, List.take_succ_cons]
        rw [ih n' r' (Nat.succ_le_succ_iff.mp h)]

/-- The store-level minimum-payment step writes only at the working-dict
reference and allocates the schedule item at the end of the store. -/
theorem heapPayMinimum_store (m : ℕ) (dt : ℤ) (store : List Cell) (wdRef : ℕ) (n : ℕ)
    (hlen : n ≤ store.length) (hr : n ≤ wdRef) :
    n ≤ (heapPayMinimum m dt store wdRef).1.length
    ∧ (heapPayMinimum m dt store wdRef).1.take n = store.take n
    ∧ n ≤ (heapPayMinimum m dt store wdRef).2 := by
  simp only [heapPayMinimum]
  refine ⟨?_, ?_, ?_⟩
  · simp only [List.length_append, List.length_set, List.length_singleton]
    omega
  · rw [List.take_append_of_le_length (by simp [List.length_set]; omega)]
    exact take_set_of_le _ store n wdRef hr
  · simp only [List.length_set]
    exact hlen

/-- Store-level phase 1 preserves the caller prefix and allocates all item
references at or beyond `n`. -/
theorem heapMinimumPhase_store (m : ℕ) (dt : ℤ) :
    ∀ (refs : List ℕ) (store : List Cell) (n : ℕ), n ≤ store.length →
      (∀ r ∈ refs, n ≤ r) →
      n ≤ (heapMinimumPhase m dt refs store).1.length
      ∧ (heapMinimumPhase m dt refs store).1.take n = store.take n
      ∧ (∀ r ∈ (heapMinimumPhase m dt refs store).2.1, n ≤ r) := by
  intro refs
  induction refs with
  | nil =>
    intro store n hlen _
    exact ⟨hlen, rfl, by simp [heapMinimumPhase]⟩
  | cons r rs ih =>
    intro store n hlen hrefs
    rw [heapMinimumPhase]
    split
    · exact ih store n hlen (fun x hx => hrefs x (List.mem_cons_of_mem r hx))
    · have hstep := heapPayMinimum_store m dt store r n hlen (hrefs r (List.mem_cons_self r rs))
      have hrec := ih (heapPayMinimum m dt store r).1 n hstep.1
        (fun x hx => hrefs x (List.mem_cons_of_mem r hx))
      refine ⟨hrec.1, hrec.2.1.trans hstep.2.1, ?_⟩
      intro x hx
      rcases List.mem_cons.mp hx with rfl | hx2
      · exact hstep.2.2
      · exact hrec.2.2 x hx2

/-- Store-level phase 2 writes only at working-dict references. -/
theorem heapApplyExtra_store (m : ℕ) (e : ℚ) :
    ∀ (refs : List ℕ) (store : List Cell) (n : ℕ), n ≤ store.length →
      (∀ r ∈ refs, n ≤ r) →
      n ≤ (heapApplyExtra m e refs store).1.length
      ∧ (heapApplyExtra m e refs store).1.take n = store.take n := by
  intro refs
  induction refs with
  | nil =>
    intro store n hlen _
    exact ⟨hlen, rfl⟩
  | cons r rs ih =>
    intro store n hlen hrefs
    rw [heapApplyExtra]
    split
    · exact ih store n hlen (fun x hx => hrefs x (List.mem_cons_of_mem r hx))
    · refine ⟨by simp [List.length_set]; omega, ?_⟩
      exact take_set_of_le _ store n r (hrefs r (List.mem_cons_self r rs))

/-- The store-level in-place schedule update writes only at item references. -/
theorem heapUpdateSchedule_store (debt_id : String) (m : ℕ) (e b : ℚ) :
    ∀ (refs : List ℕ) (store : List Cell) (n : ℕ), n ≤ store.length →
      (∀ r ∈ refs, n ≤ r) →
      n ≤ (heapUpdateSchedule debt_id m e b refs store).length
      ∧ (heapUpdateSchedule debt_id m e b refs store).take n = store.take n := by
  intro refs
  induction refs with
  | nil =>
    intro store n hlen _
    exact ⟨hlen, rfl⟩
  | cons r rs ih =>
    intro store n hlen hrefs
    rw [heapUpdateSchedule]
    split
    · refine ⟨by simp [List.length_set]; omega, ?_⟩
      exact take_set_of_le _ store n r (hrefs r (List.mem_cons_self r rs))
    · exact ih store n hlen (fun x hx => hrefs x (List.mem_cons_of_mem r hx))

/-- One store-level month preserves the frame invariant. -/
theorem heapSimulateMonth_storeInv (mp : ℚ) (sd : ℤ) (n : ℕ) (base : List Cell)
    (s : HeapSimState) (h : storeInv n base s) :
    storeInv n base (heapSimulateMonth mp sd s) := by
  obtain ⟨hlen, htake, hwd, hitem⟩ := h
  have hphase := heapMinimumPhase_store (s.month + 1)
    (sd + 30 * ((s.month + 1 : ℕ) : ℤ)) s.wdRefs s.store n hlen hwd
  have hitems1 : ∀ r ∈ (heapMinimumPhase (s.month + 1) (sd + 30 * ((s.month + 1 : ℕ) : ℤ))
      s.wdRefs s.store).2.1.reverse ++ s.itemRefs_rev, n ≤ r := by
    intro r hr
    rcases List.mem_append.mp hr with h1 | h2
    · exact hphase.2.2 r (List.mem_reverse.mp h1)
    · exact hitem r h2
  simp only [heapSimulateMonth]
  split
  · split
    · next x store2 info heq =>
      have hextra := heapApplyExtra_store (s.month + 1)
        (mp - (heapMinimumPhase (s.month + 1) (sd + 30 * ((s.month + 1 : ℕ) : ℤ))
          s.wdRefs s.store).2.2.2) s.wdRefs
        (heapMinimumPhase (s.month + 1) (sd + 30 * ((s.month + 1 : ℕ) : ℤ))
          s.wdRefs s.store).1 n hphase.1 hwd
      rw [heq] at hextra
      have hupd := heapUpdateSchedule_store info.1 (s.month + 1) info.2.1 info.2.2
        ((heapMinimumPhase (s.month + 1) (sd + 30 * ((s.month + 1 : ℕ) : ℤ))
          s.wdRefs s.store).2.1.reverse ++ s.itemRefs_rev) store2 n hextra.1 hitems1
      exact ⟨hupd.1, hupd.2.trans (hextra.2.trans (hphase.2.1.trans htake)), hwd, hitems1⟩
    · next x store2 heq =>
      have hextra := heapApplyExtra_store (s.month + 1)
        (mp - (heapMinimumPhase (s.month + 1) (sd + 30 * ((s.month + 1 : ℕ) : ℤ))
          s.wdRefs s.store).2.2.2) s.wdRefs
        (heapMinimumPhase (s.month + 1) (sd + 30 * ((s.month + 1 : ℕ) : ℤ))
          s.wdRefs s.store).1 n hphase.1 hwd
      rw [heq] at hextra
      exact ⟨hextra.1, hextra.2.trans (hphase.2.1.trans htake), hwd, hitems1⟩
  · exact ⟨hphase.1, hphase.2.1.trans htake, hwd, hitems1⟩

/-- The store-level month loop preserves the frame invariant. -/
theorem heapRunLoop_storeInv (mp : ℚ) (sd : ℤ) (n : ℕ) (base : List Cell) :
    ∀ (fuel : ℕ) (s : HeapSimState), storeInv n base s →
      storeInv n base (heapRunLoop mp sd fuel s) := by
  intro fuel
  induction fuel with
  | zero =>
    intro s h
    exact h
  | succ k ih =>
    intro s h
    rw [heapRunLoop]
    split
    · exact ih _ (heapSimulateMonth_storeInv mp sd n base s h)
    · exact h

/-- Working-state creation only appends to the store (deep copies plus
working dicts), so the caller prefix survives and every allocated working-dict
reference lies beyond it. -/
theorem allocWorking_store :
    ∀ (refs : List ℕ) (store : List Cell) (n : ℕ), n ≤ store.length →
      n ≤ (allocWorking refs store).1.length
      ∧ (allocWorking refs store).1.take n = store.take n
      ∧ (∀ r ∈ (allocWorking refs store).2, n ≤ r) := by
  intro refs
  induction refs with
  | nil =>
    intro store n hlen
    exact ⟨hlen, rfl, by simp [allocWorking]⟩
  | cons r rs ih =>
    intro store n hlen
    simp only [allocWorking]
    have hlen2 : n ≤ (store ++ [Cell.debtCell (readDebt store r)]
        ++ [Cell.wdCell (initialHeapWD store.length (readDebt store r).balance)]).length := by
      simp only [List.length_append, List.length_singleton]
      omega
    have hrec := ih (store ++ [Cell.debtCell (readDebt store r)]
        ++ [Cell.wdCell (initialHeapWD store.length (readDebt store r).balance)]) n hlen2
    refine ⟨hrec.1, ?_, ?_⟩
    · refine hrec.2.1.trans ?_
      rw [List.take_append_of_le_length
        (by simp only [List.length_append, List.length_singleton]; omega)]
      exact List.take_append_of_le_length hlen
    · intro x hx
      rcases List.mem_cons.mp hx with rfl | hx2
      · simp only [List.length_append, List.length_singleton]
        omega
      · exact hrec.2.2 x hx2

/-- C10: the store-level model of `simulate_payoff_scenario` never mutates the
caller's inputs: after any call — successful or failing — the caller's cells
(`0 .. debts.length - 1`) still hold exactly the input debts, in order, with
unchanged balance, APR and minimum payment; all mutated state (working dicts,
schedule items) lives in freshly allocated cells beyond them, and the working
dicts point at deep copies (`allocWorking`), never at the originals. -/
theorem C10_simulator_never_mutates_inputs (debts : List SimpleDebt)
    (strategy : PayoffStrategy) (mp : ℚ) (sd : ℤ) (co : List String) :
    (heapSimulate debts strategy mp sd co).1.take debts.length
      = debts.map Cell.debtCell := by
  have htl : (debts.map Cell.debtCell).take debts.length = debts.map Cell.debtCell := by
    rw [← List.length_map debts Cell.debtCell]
    exact List.take_length _
  simp only [heapSimulate]
  split
  · exact htl
  · split
    · exact htl
    · have hlen0 : debts.length ≤ (debts.map Cell.debtCell).length := by
        simp
      have halloc := allocWorking_store
        (orderRefsByStrategy (debts.map Cell.debtCell) strategy co (List.range debts.length))
        (debts.map Cell.debtCell) debts.length hlen0
      have hinv : storeInv debts.length (debts.map Cell.debtCell)
          { store := (allocWorking (orderRefsByStrategy (debts.map Cell.debtCell) strategy co
              (List.range debts.length)) (debts.map Cell.debtCell)).1,
            wdRefs := (allocWorking (orderRefsByStrategy (debts.map Cell.debtCell) strategy co
              (List.range debts.length)) (debts.map Cell.debtCell)).2,
            itemRefs_rev := [], month := 0, total_interest := 0, total_paid := 0 } := by
        refine ⟨halloc.1, halloc.2.1.trans htl, halloc.2.2, ?_⟩
        simp
      have := heapRunLoop_storeInv mp sd debts.length (debts.map Cell.debtCell)
        MAX_MONTHS _ hinv
      exact this.2.1

/-- The minimum-payment step written through the named quantities `pmPay`,
`pmInterest`, `pmNewBalance` and `snap`. -/
theorem payMinimumStep_eq (m : ℕ) (dt : ℤ) (wd : WorkingDebt) :
    payMinimumStep m dt wd =
      ({ debt := wd.debt
         remaining_balance := snap (pmNewBalance wd)
         total_paid := wd.total_paid + pmPay wd
         total_interest := wd.total_interest + pmInterest wd
         months_to_payoff := if pmNewBalance wd ≤ payoffThreshold then m
           else wd.months_to_payoff
         paid_off := if pmNewBalance wd ≤ payoffThreshold then true else wd.paid_off },
       { month := m
         payment_date := dt
         debt_id := wd.debt.id
         debt_name := wd.debt.name
         payment := pmPay wd
         principal := pmPay wd - pmInterest wd
         interest := pmInterest wd
         remaining_balance := max 0 (snap (pmNewBalance wd)) }) := rfl

/-- Monthly interest is nonnegative on a valid balance. -/
theorem calculate_monthly_interest_nonneg (b r : ℚ) (hb : 0 ≤ b) (hr : 0 ≤ r) :
    0 ≤ calculate_monthly_interest b r := by
  unfold calculate_monthly_interest
  positivity

/-- Monthly interest is monotone in the balance. -/
theorem calculate_monthly_interest_mono (b1 b2 r : ℚ) (h : b2 ≤ b1) (hr : 0 ≤ r) :
    calculate_monthly_interest b2 r ≤ calculate_monthly_interest b1 r := by
  unfold calculate_monthly_interest
  have h1 : b2 * r ≤ b1 * r := mul_le_mul_of_nonneg_right h hr
  have h2 : b2 * r / 100 ≤ b1 * r / 100 := by linarith
  linarith

/-- The minimum payment step pays a nonnegative amount on a valid debt. -/
theorem pmPay_nonneg (wd : WorkingDebt) (hv : wdValid wd) : 0 ≤ pmPay wd := by
  obtain ⟨hb, hr, hm, _⟩ := hv
  have hi := calculate_monthly_interest_nonneg wd.remaining_balance wd.debt.apr hb hr
  unfold pmPay
  exact le_min (le_of_lt hm) (by linarith)

/-- The interest portion is nonnegative on a valid debt. -/
theorem pmInterest_nonneg (wd : WorkingDebt) (hv : wdValid wd) : 0 ≤ pmInterest wd := by
  have hi := calculate_monthly_interest_nonneg wd.remaining_balance wd.debt.apr hv.1 hv.2.1
  unfold pmInterest
  exact le_min hi (pmPay_nonneg wd hv)

/-- The interest portion never exceeds the payment. -/
theorem pmInterest_le_pay (wd : WorkingDebt) : pmInterest wd ≤ pmPay wd :=
  min_le_right _ _

/-- Closed form of the post-payment balance on a valid debt:
`min (max (balance + interest − minimum) 0) balance`. -/
theorem pmNewBalance_eq (wd : WorkingDebt) (hv : wdValid wd) :
    pmNewBalance wd
      = min (max (wd.remaining_balance
            + calculate_monthly_interest wd.remaining_balance wd.debt.apr
            - wd.debt.minimum_payment) 0)
          wd.remaining_balance := by
  obtain ⟨hb, hr, hm, _⟩ := hv
  have hi := calculate_monthly_interest_nonneg wd.remaining_balance wd.debt.apr hb hr
  unfold pmNewBalance pmPay pmInterest pmPay
  rcases le_or_lt wd.debt.minimum_payment
      (wd.remaining_balance + calculate_monthly_interest wd.remaining_balance wd.debt.apr)
      with hc | hc
  · rw [min_eq_left hc]
    rcases le_or_lt (calculate_monthly_interest wd.remaining_balance wd.debt.apr)
        wd.debt.minimum_payment with hc2 | hc2
    · rw [min_eq_left hc2, max_eq_left (by linarith), min_eq_left (by linarith)]
      ring
    · rw [min_eq_right (le_of_lt hc2), max_eq_left (by linarith),
        min_eq_right (by linarith)]
      ring
  · rw [min_eq_right (le_of_lt hc)]
    rw [min_eq_left (by linarith)]
    rw [max_eq_right (by linarith), min_eq_left hb]
    ring

/-- The post-payment balance is nonnegative on a valid debt. -/
theorem pmNewBalance_nonneg (wd : WorkingDebt) (hv : wdValid wd) : 0 ≤ pmNewBalance wd := by
  rw [pmNewBalance_eq wd hv]
  exact le_min (le_max_right _ 0) hv.1

/-- The post-payment balance never exceeds the pre-payment balance. -/
theorem pmNewBalance_le (wd : WorkingDebt) (hv : wdValid wd) :
    pmNewBalance wd ≤ wd.remaining_balance := by
  rw [pmNewBalance_eq wd hv]
  exact min_le_right _ _

/-- Snapping keeps a nonnegative value nonnegative. -/
theorem snap_nonneg (x : ℚ) (h : 0 ≤ x) : 0 ≤ snap x := by
  unfold snap
  split
  · exact le_refl 0
  · exact h

/-- Snapping never increases a nonnegative value. -/
theorem snap_le (x : ℚ) (h : 0 ≤ x) : snap x ≤ x := by
  unfold snap
  split
  · exact h
  · exact le_refl x

/-- Snapping is monotone. -/
theorem snap_mono (x y : ℚ) (h : x ≤ y) : snap x ≤ snap y := by
  unfold snap
  split
  · split
    · exact le_refl 0
    · next hy =>
      have hpt : (0 : ℚ) < payoffThreshold := by unfold payoffThreshold; norm_num
      exact le_of_lt (hpt.trans (not_le.mp hy))
  · next hx =>
    rw [if_neg (by intro hy; exact hx (h.trans hy))]
    exact h

/-- The write-off of one snap is between 0 and the 0.01 threshold. -/
theorem snap_writeoff (x : ℚ) (h : 0 ≤ x) :
    0 ≤ x - snap x ∧ x - snap x ≤ payoffThreshold := by
  unfold snap
  split
  · next hx => exact ⟨by linarith, by linarith⟩
  · next hx =>
    refine ⟨by linarith, ?_⟩
    unfold payoffThreshold
    norm_num

/-- When the balance is not written off, the snap is the identity, so the
write-off is zero exactly when the debt does not newly pay off. -/
theorem snap_eq_of_not_le (x : ℚ) (h : ¬ x ≤ payoffThreshold) : snap x = x := by
  unfold snap
  rw [if_neg h]

/-- With the same debt record and a smaller balance the minimum-payment step
pays no more. -/
theorem pmPay_mono (w1 w2 : WorkingDebt) (hdebt : w2.debt = w1.debt)
    (hb : w2.remaining_balance ≤ w1.remaining_balance) (hv1 : wdValid w1) :
    pmPay w2 ≤ pmPay w1 := by
  unfold pmPay
  rw [hdebt]
  refine min_le_min (le_refl _) ?_
  have := calculate_monthly_interest_mono w1.remaining_balance w2.remaining_balance
    w1.debt.apr hb hv1.2.1
  linarith

/-- With the same debt record and a smaller balance the interest portion is no
larger. -/
theorem pmInterest_mono (w1 w2 : WorkingDebt) (hdebt : w2.debt = w1.debt)
    (hb : w2.remaining_balance ≤ w1.remaining_balance) (hv1 : wdValid w1) :
    pmInterest w2 ≤ pmInterest w1 := by
  unfold pmInterest
  have h1 := calculate_monthly_interest_mono w1.remaining_balance w2.remaining_balance
    w1.debt.apr hb hv1.2.1
  have h2 := pmPay_mono w1 w2 hdebt hb hv1
  rw [hdebt]
  exact min_le_min h1 h2

/-- With the same debt record and a smaller balance the post-payment balance
is no larger. -/
theorem pmNewBalance_mono (w1 w2 : WorkingDebt) (hdebt : w2.debt = w1.debt)
    (hb : w2.remaining_balance ≤ w1.remaining_balance)
    (hv1 : wdValid w1) (hv2 : wdValid w2) :
    pmNewBalance w2 ≤ pmNewBalance w1 := by
  rw [pmNewBalance_eq w1 hv1, pmNewBalance_eq w2 hv2, hdebt]
  have := calculate_monthly_interest_mono w1.remaining_balance w2.remaining_balance
    w1.debt.apr hb hv1.2.1
  exact min_le_min (max_le_max (by linarith) (le_refl 0)) hb

/-- The minimum-payment step keeps a working debt valid (for an unpaid
debt). -/
theorem payMinimumStep_wd_valid (m : ℕ) (dt : ℤ) (wd : WorkingDebt)
    (hv : wdValid wd) (hp0 : wd.paid_off = false) :
    wdValid (payMinimumStep m dt wd).1 := by
  rw [payMinimumStep_eq]
  refine ⟨snap_nonneg _ (pmNewBalance_nonneg wd hv), hv.2.1, hv.2.2.1, ?_⟩
  intro hp
  by_cases hc : pmNewBalance wd ≤ payoffThreshold
  · show snap (pmNewBalance wd) = 0
    unfold snap
    rw [if_pos hc]
  · exfalso
    have : (if pmNewBalance wd ≤ payoffThreshold then true else wd.paid_off) = true := hp
    rw [if_neg hc, hp0] at this
    exact Bool.false_ne_true this

/-- Balance accounting of one minimum-payment step: the paid principal plus
the new balance accounts for the old balance, up to a write-off of at most
0.01 when the debt snaps to zero. -/
theorem payMinimumStep_account (wd : WorkingDebt) (hv : wdValid wd) :
    snap (pmNewBalance wd) + (pmPay wd - pmInterest wd) ≤ wd.remaining_balance
    ∧ wd.remaining_balance ≤ snap (pmNewBalance wd) + (pmPay wd - pmInterest wd)
        + (if pmNewBalance wd ≤ payoffThreshold then payoffThreshold else 0) := by
  have hnb := pmNewBalance_nonneg wd hv
  have hw := snap_writeoff (pmNewBalance wd) hnb
  have hb : wd.remaining_balance = pmNewBalance wd + (pmPay wd - pmInterest wd) := by
    unfold pmNewBalance
    ring
  constructor
  · rw [hb]
    linarith [hw.1]
  · rw [hb]
    split
    · linarith [hw.2]
    · next hc =>
      rw [snap_eq_of_not_le _ hc]
      linarith

/-- Unfolding: phase 1 skips a paid-off debt. -/
theorem minimumPhase_cons_paid (m : ℕ) (dt : ℤ) (wd : WorkingDebt)
    (rest : List WorkingDebt) (hp : wd.paid_off = true) :
    minimumPhase m dt (wd :: rest)
      = (wd :: (minimumPhase m dt rest).1, (minimumPhase m dt rest).2) := by
  rw [minimumPhase, if_pos hp]

/-- Unfolding: phase 1 applies the minimum-payment step to an unpaid debt. -/
theorem minimumPhase_cons_unpaid (m : ℕ) (dt : ℤ) (wd : WorkingDebt)
    (rest : List WorkingDebt) (hp : wd.paid_off = false) :
    minimumPhase m dt (wd :: rest)
      = ((payMinimumStep m dt wd).1 :: (minimumPhase m dt rest).1,
         (payMinimumStep m dt wd).2 :: (minimumPhase m dt rest).2) := by
  rw [minimumPhase, if_neg (by simp [hp])]

/-- Unfolding: phase 2 skips a paid-off debt. -/
theorem applyExtra_cons_paid (m : ℕ) (e : ℚ) (wd : WorkingDebt)
    (rest : List WorkingDebt) (hp : wd.paid_off = true) :
    applyExtra m e (wd :: rest)
      = (wd :: (applyExtra m e rest).1, (applyExtra m e rest).2) := by
  rw [applyExtra, if_pos hp]

/-- Unfolding: phase 2 pays the first unpaid debt and stops. -/
theorem applyExtra_cons_unpaid (m : ℕ) (e : ℚ) (wd : WorkingDebt)
    (rest : List WorkingDebt) (hp : wd.paid_off = false) :
    applyExtra m e (wd :: rest)
      = (extraUpdatedDebt m e wd :: rest,
         some (wd.debt, min e wd.remaining_balance,
           (extraUpdatedDebt m e wd).remaining_balance)) := by
  rw [applyExtra, if_neg (by simp [hp])]

/-- Counting paid-off debts through a cons. -/
theorem paidCount_cons (wd : WorkingDebt) (l : List WorkingDebt) :
    paidCount (wd :: l) = (if wd.paid_off = true then 1 else 0) + paidCount l := by
  unfold paidCount
  rw [List.filter_cons]
  split
  · simp [Nat.add_comm]
  · simp

/-- Balance sum through a cons. -/
theorem balSum_cons (wd : WorkingDebt) (l : List WorkingDebt) :
    balSum (wd :: l) = wd.remaining_balance + balSum l := by
  simp [balSum]

/-- Original-balance sum through a cons. -/
theorem origSum_cons (wd : WorkingDebt) (l : List WorkingDebt) :
    origSum (wd :: l) = wd.debt.balance + origSum l := by
  simp [origSum]

/-- Equal debt-record columns give equal original-balance sums. -/
theorem origSum_eq_of_map_debt (l1 l2 : List WorkingDebt)
    (h : l1.map (fun wd => wd.debt) = l2.map (fun wd => wd.debt)) :
    origSum l1 = origSum l2 := by
  unfold origSum
  have h1 : l1.map (fun wd => wd.debt.balance)
      = (l1.map (fun wd => wd.debt)).map (fun d => d.balance) := by
    rw [List.map_map]
    rfl
  have h2 : l2.map (fun wd => wd.debt.balance)
      = (l2.map (fun wd => wd.debt)).map (fun d => d.balance) := by
    rw [List.map_map]
    rfl
  rw [h1, h2, h]

/-- The 0.01 threshold is positive. -/
theorem payoffThreshold_pos : (0 : ℚ) < payoffThreshold := by
  unfold payoffThreshold
  norm_num

/-- Phase 1 invariants and accounting: validity is preserved, debt records and
their order are untouched, the paid-off count only grows, the month's interest
and payment sums are nonnegative, and the paid principal
(payments − interest) accounts for the drop in total balance up to a write-off
of at most 0.01 per newly paid-off debt. -/
theorem minimumPhase_spec (m : ℕ) (dt : ℤ) :
    ∀ l : List WorkingDebt, workingValid l →
      workingValid (minimumPhase m dt l).1
      ∧ (minimumPhase m dt l).1.map (fun wd => wd.debt) = l.map (fun wd => wd.debt)
      ∧ paidCount l ≤ paidCount (minimumPhase m dt l).1
      ∧ 0 ≤ ((minimumPhase m dt l).2.map (fun it => it.interest)).sum
      ∧ 0 ≤ ((minimumPhase m dt l).2.map (fun it => it.payment)).sum
      ∧ balSum (minimumPhase m dt l).1
          + (((minimumPhase m dt l).2.map (fun it => it.payment)).sum
            - ((minimumPhase m dt l).2.map (fun it => it.interest)).sum)
          ≤ balSum l
      ∧ balSum l ≤ balSum (minimumPhase m dt l).1
          + (((minimumPhase m dt l).2.map (fun it => it.payment)).sum
            - ((minimumPhase m dt l).2.map (fun it => it.interest)).sum)
          + payoffThreshold * ((paidCount (minimumPhase m dt l).1 : ℚ)
            - (paidCount l : ℚ)) := by
  intro l
  induction l with
  | nil =>
    intro _
    refine ⟨fun x hx => absurd hx (List.not_mem_nil x), rfl, le_refl _, le_refl _,
      le_refl _, ?_, ?_⟩
    · simp [minimumPhase, balSum]
    · simp [minimumPhase, balSum]
  | cons wd rest ih =>
    intro hv
    have hvh : wdValid wd := hv wd (List.mem_cons_self wd rest)
    have hvr : workingValid rest := fun x hx => hv x (List.mem_cons_of_mem wd hx)
    obtain ⟨ih1, ih2, ih3, ih4, ih5, ih6, ih7⟩ := ih hvr
    by_cases hp : wd.paid_off = true
    · rw [minimumPhase_cons_paid m dt wd rest hp]
      refine ⟨?_, ?_, ?_, ih4, ih5, ?_, ?_⟩
      · intro x hx
        rcases List.mem_cons.mp hx with rfl | hx2
        · exact hvh
        · exact ih1 x hx2
      · simp only [List.map_cons, ih2]
      · rw [paidCount_cons wd ((minimumPhase m dt rest).1 : List WorkingDebt),
          paidCount_cons wd rest]
        exact Nat.add_le_add_left ih3 _
      · rw [balSum_cons, balSum_cons]
        linarith [ih6]
      · rw [balSum_cons, balSum_cons, paidCount_cons wd (minimumPhase m dt rest).1,
          paidCount_cons wd rest, if_pos hp]
        push_cast
        linarith [ih7]
    · have hp0 : wd.paid_off = false := by
        cases h : wd.paid_off
        · rfl
        · exact absurd h hp
      rw [minimumPhase_cons_unpaid m dt wd rest hp0]
      have hstep := payMinimumStep_account wd hvh
      have hstepv := payMinimumStep_wd_valid m dt wd hvh hp0
      have hpay := pmPay_nonneg wd hvh
      have hint := pmInterest_nonneg wd hvh
      refine ⟨?_, ?_, ?_, ?_, ?_, ?_, ?_⟩
      · intro x hx
        rcases List.mem_cons.mp hx with rfl | hx2
        · exact hstepv
        · exact ih1 x hx2
      · simp only [List.map_cons, ih2, payMinimumStep_eq]
      · rw [paidCount_cons (payMinimumStep m dt wd).1 (minimumPhase m dt rest).1,
          paidCount_cons wd rest, if_neg (show ¬ wd.paid_off = true from hp)]
        split
        · omega
        · omega
      · simp only [List.map_cons, List.sum_cons, payMinimumStep_eq]
        linarith [ih4]
      · simp only [List.map_cons, List.sum_cons, payMinimumStep_eq]
        linarith [ih5]
      · rw [balSum_cons, balSum_cons]
        simp only [List.map_cons, List.sum_cons, payMinimumStep_eq]
        linarith [ih6, hstep.1]
      · rw [balSum_cons, balSum_cons, paidCount_cons (payMinimumStep m dt wd).1
          (minimumPhase m dt rest).1, paidCount_cons wd rest]
        simp only [List.map_cons, List.sum_cons, payMinimumStep_eq]
        by_cases hc : pmNewBalance wd ≤ payoffThreshold
        · have hst2 := hstep.2
          rw [if_pos hc] at hst2
          simp only [hc, hp0, eq_self_iff_true, if_true, Bool.false_eq_true, if_false]
          push_cast
          linarith [ih7]
        · have hst2 := hstep.2
          rw [if_neg hc] at hst2
          simp only [hc, hp0, Bool.false_eq_true, if_false]
          push_cast
          linarith [ih7]

/-- The phase-2 target update written through `snap`. -/
theorem extraUpdatedDebt_eq (m : ℕ) (e : ℚ) (wd : WorkingDebt) :
    extraUpdatedDebt m e wd =
      { debt := wd.debt
        remaining_balance := snap (wd.remaining_balance - min e wd.remaining_balance)
        total_paid := wd.total_paid + min e wd.remaining_balance
        total_interest := wd.total_interest
        months_to_payoff :=
          if wd.remaining_balance - min e wd.remaining_balance ≤ payoffThreshold then m
          else wd.months_to_payoff
        paid_off :=
          if wd.remaining_balance - min e wd.remaining_balance ≤ payoffThreshold then true
          else wd.paid_off } := rfl

/-- The phase-2 target stays valid (for an unpaid target). -/
theorem extraUpdatedDebt_valid (m : ℕ) (e : ℚ) (wd : WorkingDebt)
    (hv : wdValid wd) (hp0 : wd.paid_off = false) :
    wdValid (extraUpdatedDebt m e wd) := by
  rw [extraUpdatedDebt_eq]
  have hx : 0 ≤ wd.remaining_balance - min e wd.remaining_balance := by
    have := min_le_right e wd.remaining_balance
    linarith
  refine ⟨snap_nonneg _ hx, hv.2.1, hv.2.2.1, ?_⟩
  intro hpp
  by_cases hc : wd.remaining_balance - min e wd.remaining_balance ≤ payoffThreshold
  · show snap (wd.remaining_balance - min e wd.remaining_balance) = 0
    unfold snap
    rw [if_pos hc]
  · exfalso
    have : (if wd.remaining_balance - min e wd.remaining_balance ≤ payoffThreshold
        then true else wd.paid_off) = true := hpp
    rw [if_neg hc, hp0] at this
    exact Bool.false_ne_true this

/-- Balance accounting of the phase-2 target update. -/
theorem extraUpdatedDebt_account (m : ℕ) (e : ℚ) (wd : WorkingDebt) :
    (extraUpdatedDebt m e wd).remaining_balance + min e wd.remaining_balance
      ≤ wd.remaining_balance
    ∧ wd.remaining_balance ≤ (extraUpdatedDebt m e wd).remaining_balance
        + min e wd.remaining_balance
        + (if wd.remaining_balance - min e wd.remaining_balance ≤ payoffThreshold
            then payoffThreshold else 0) := by
  have hx : 0 ≤ wd.remaining_balance - min e wd.remaining_balance := by
    have := min_le_right e wd.remaining_balance
    linarith
  have hw := snap_writeoff (wd.remaining_balance - min e wd.remaining_balance) hx
  rw [extraUpdatedDebt_eq]
  constructor
  · show snap (wd.remaining_balance - min e wd.remaining_balance)
        + min e wd.remaining_balance ≤ wd.remaining_balance
    linarith [hw.1]
  · show wd.remaining_balance ≤ snap (wd.remaining_balance - min e wd.remaining_balance)
        + min e wd.remaining_balance + _
    split
    · linarith [hw.2]
    · next hc =>
      rw [snap_eq_of_not_le _ hc]
      linarith

/-- A phase 2 that found no target changed nothing. -/
theorem applyExtra_none (m : ℕ) (e : ℚ) :
    ∀ l : List WorkingDebt, (applyExtra m e l).2 = none → (applyExtra m e l).1 = l := by
  intro l
  induction l with
  | nil =>
    intro _
    rfl
  | cons wd rest ih =>
    intro h
    by_cases hp : wd.paid_off = true
    · rw [applyExtra_cons_paid m e wd rest hp] at h ⊢
      simp only at h ⊢
      rw [ih h]
    · have hp0 : wd.paid_off = false := by
        cases hh : wd.paid_off
        · rfl
        · exact absurd hh hp
      rw [applyExtra_cons_unpaid m e wd rest hp0] at h
      exact absurd h (by simp)

/-- A phase 2 that reports a target found an unpaid debt in the list whose
debt record it returns. -/
theorem applyExtra_some (m : ℕ) (e : ℚ) :
    ∀ (l : List WorkingDebt) (info : SimpleDebt × ℚ × ℚ),
      (applyExtra m e l).2 = some info →
      ∃ wd ∈ l, wd.paid_off = false ∧ info.1 = wd.debt := by
  intro l
  induction l with
  | nil =>
    intro info h
    exact absurd h (by simp [applyExtra])
  | cons wd rest ih =>
    intro info h
    by_cases hp : wd.paid_off = true
    · rw [applyExtra_cons_paid m e wd rest hp] at h
      obtain ⟨x, hx, hx2, hx3⟩ := ih info h
      exact ⟨x, List.mem_cons_of_mem wd hx, hx2, hx3⟩
    · have hp0 : wd.paid_off = false := by
        cases hh : wd.paid_off
        · rfl
        · exact absurd hh hp
      rw [applyExtra_cons_unpaid m e wd rest hp0] at h
      simp only [Option.some.injEq] at h
      exact ⟨wd, List.mem_cons_self wd rest, hp0, by rw [← h]⟩

/-- Phase 2 invariants and accounting: validity preserved, debt records
untouched, paid-off count grows, and the extra principal accounts for the
balance drop up to a write-off of at most 0.01 per newly paid-off debt. -/
theorem applyExtra_spec (m : ℕ) (e : ℚ) :
    ∀ l : List WorkingDebt, workingValid l →
      workingValid (applyExtra m e l).1
      ∧ (applyExtra m e l).1.map (fun wd => wd.debt) = l.map (fun wd => wd.debt)
      ∧ paidCount l ≤ paidCount (applyExtra m e l).1
      ∧ balSum (applyExtra m e l).1 + extraAmount (applyExtra m e l).2 ≤ balSum l
      ∧ balSum l ≤ balSum (applyExtra m e l).1 + extraAmount (applyExtra m e l).2
          + payoffThreshold * ((paidCount (applyExtra m e l).1 : ℚ)
            - (paidCount l : ℚ)) := by
  intro l
  induction l with
  | nil =>
    intro _
    refine ⟨fun x hx => absurd hx (List.not_mem_nil x), rfl, le_refl _, ?_, ?_⟩
    · simp [applyExtra, balSum, extraAmount]
    · simp [applyExtra, balSum, extraAmount]
  | cons wd rest ih =>
    intro hv
    have hvh : wdValid wd := hv wd (List.mem_cons_self wd rest)
    have hvr : workingValid rest := fun x hx => hv x (List.mem_cons_of_mem wd hx)
    by_cases hp : wd.paid_off = true
    · rw [applyExtra_cons_paid m e wd rest hp]
      obtain ⟨ih1, ih2, ih3, ih4, ih5⟩ := ih hvr
      refine ⟨?_, ?_, ?_, ?_, ?_⟩
      · intro x hx
        rcases List.mem_cons.mp hx with rfl | hx2
        · exact hvh
        · exact ih1 x hx2
      · simp only [List.map_cons, ih2]
      · rw [paidCount_cons wd (applyExtra m e rest).1, paidCount_cons wd rest]
        exact Nat.add_le_add_left ih3 _
      · rw [balSum_cons, balSum_cons]
        simp only
        linarith [ih4]
      · rw [balSum_cons, balSum_cons, paidCount_cons wd (applyExtra m e rest).1,
          paidCount_cons wd rest, if_pos hp]
        simp only
        push_cast
        linarith [ih5]
    · have hp0 : wd.paid_off = false := by
        cases hh : wd.paid_off
        · rfl
        · exact absurd hh hp
      rw [applyExtra_cons_unpaid m e wd rest hp0]
      have hacct := extraUpdatedDebt_account m e wd
      have hvup := extraUpdatedDebt_valid m e wd hvh hp0
      refine ⟨?_, ?_, ?_, ?_, ?_⟩
      · intro x hx
        rcases List.mem_cons.mp hx with rfl | hx2
        · exact hvup
        · exact hvr x hx2
      · simp only [List.map_cons, extraUpdatedDebt_eq]
      · rw [paidCount_cons (extraUpdatedDebt m e wd) rest, paidCount_cons wd rest,
          if_neg (show ¬ wd.paid_off = true from hp)]
        split
        · omega
        · omega
      · rw [balSum_cons, balSum_cons]
        simp only [extraAmount]
        linarith [hacct.1]
      · rw [balSum_cons, balSum_cons, paidCount_cons (extraUpdatedDebt m e wd) rest,
          paidCount_cons wd rest, if_neg (show ¬ wd.paid_off = true from hp)]
        simp only [extraAmount]
        by_cases hc : wd.remaining_balance - min e wd.remaining_balance ≤ payoffThreshold
        · have hacct2 := hacct.2
          rw [if_pos hc] at hacct2
          have hpd : (extraUpdatedDebt m e wd).paid_off = true := by
            rw [extraUpdatedDebt_eq]
            show (if wd.remaining_balance - min e wd.remaining_balance ≤ payoffThreshold
              then true else wd.paid_off) = true
            rw [if_pos hc]
          simp only [hpd, eq_self_iff_true, if_true]
          push_cast
          linarith
        · have hacct2 := hacct.2
          rw [if_neg hc] at hacct2
          have hpd : (extraUpdatedDebt m e wd).paid_off = false := by
            rw [extraUpdatedDebt_eq]
            show (if wd.remaining_balance - min e wd.remaining_balance ≤ payoffThreshold
              then true else wd.paid_off) = false
            rw [if_neg hc, hp0]
          simp only [hpd, Bool.false_eq_true, if_false]
          push_cast
          linarith

/-- Schedule principal-plus-interest sum through a cons. -/
theorem scheduleSumPI_cons (it : PayoffScheduleItem) (l : List PayoffScheduleItem) :
    scheduleSumPI (it :: l) = (it.principal + it.interest) + scheduleSumPI l := by
  simp [scheduleSumPI]

/-- Schedule principal-plus-interest sum through an append. -/
theorem scheduleSumPI_append (l1 l2 : List PayoffScheduleItem) :
    scheduleSumPI (l1 ++ l2) = scheduleSumPI l1 + scheduleSumPI l2 := by
  simp [scheduleSumPI]

/-- Schedule principal-plus-interest sum of a reversed list. -/
theorem scheduleSumPI_reverse (l : List PayoffScheduleItem) :
    scheduleSumPI l.reverse = scheduleSumPI l := by
  simp [scheduleSumPI, List.map_reverse, List.sum_reverse]

/-- On rows that split exactly, the principal-plus-interest sum is the payment
sum. -/
theorem scheduleSumPI_eq_paySum (l : List PayoffScheduleItem)
    (h : ∀ it ∈ l, it.principal + it.interest = it.payment) :
    scheduleSumPI l = (l.map (fun it => it.payment)).sum := by
  induction l with
  | nil => simp [scheduleSumPI]
  | cons it rest ih =>
    rw [scheduleSumPI_cons, h it (List.mem_cons_self it rest), List.map_cons,
      List.sum_cons, ih (fun x hx => h x (List.mem_cons_of_mem it hx))]

/-- Updating the first matching row adds the extra amount once to the
principal-plus-interest sum. -/
theorem updateScheduleForExtra_sumPI (debt_id : String) (m : ℕ) (e b : ℚ) :
    ∀ l : List PayoffScheduleItem,
      (∃ it ∈ l, (it.debt_id == debt_id && it.month == m) = true) →
      scheduleSumPI (updateScheduleForExtra debt_id m e b l) = scheduleSumPI l + e := by
  intro l
  induction l with
  | nil =>
    intro h
    obtain ⟨it, hit, _⟩ := h
    exact absurd hit (List.not_mem_nil it)
  | cons item rest ih =>
    intro h
    rw [updateScheduleForExtra]
    by_cases hm : (item.debt_id == debt_id && item.month == m) = true
    · rw [if_pos hm, scheduleSumPI_cons, scheduleSumPI_cons]
      simp only
      ring
    · rw [if_neg hm, scheduleSumPI_cons, scheduleSumPI_cons]
      have hex : ∃ it ∈ rest, (it.debt_id == debt_id && it.month == m) = true := by
        obtain ⟨it, hit, hcond⟩ := h
        rcases List.mem_cons.mp hit with rfl | hit2
        · exact absurd hcond hm
        · exact ⟨it, hit2, hcond⟩
      rw [ih hex]
      ring

/-- Every still-unpaid debt after phase 1 got a schedule row this month. -/
theorem minimumPhase_item_exists (m : ℕ) (dt : ℤ) :
    ∀ (l : List WorkingDebt) (wd' : WorkingDebt), wd' ∈ (minimumPhase m dt l).1 →
      wd'.paid_off = false →
      ∃ it ∈ (minimumPhase m dt l).2, it.debt_id = wd'.debt.id ∧ it.month = m := by
  intro l
  induction l with
  | nil =>
    intro wd' h _
    simp [minimumPhase] at h
  | cons wd rest ih =>
    intro wd' hmem hunpaid
    by_cases hp : wd.paid_off = true
    · rw [minimumPhase_cons_paid m dt wd rest hp] at hmem ⊢
      simp only at hmem ⊢
      rcases List.mem_cons.mp hmem with rfl | h2
      · exact absurd hp (by rw [hunpaid]; exact Bool.false_ne_true)
      · exact ih wd' h2 hunpaid
    · have hp0 : wd.paid_off = false := by
        cases hh : wd.paid_off
        · rfl
        · exact absurd hh hp
      rw [minimumPhase_cons_unpaid m dt wd rest hp0] at hmem ⊢
      simp only at hmem ⊢
      rcases List.mem_cons.mp hmem with rfl | h2
      · refine ⟨(payMinimumStep m dt wd).2, List.mem_cons_self _ _, ?_, ?_⟩
        · rw [payMinimumStep_eq]
        · rw [payMinimumStep_eq]
      · obtain ⟨it, hit, hit2⟩ := ih wd' h2 hunpaid
        exact ⟨it, List.mem_cons_of_mem _ hit, hit2⟩

/-- One simulated month preserves the accounting invariant. -/
theorem simulateMonth_accounting (mp : ℚ) (sd : ℤ) (s : SimState)
    (h : simAccounting s) : simAccounting (simulateMonth mp sd s) := by
  obtain ⟨hval, hsum, hlo, hhi⟩ := h
  obtain ⟨hp1, hp2, hp3, hp4, hp5, hp6, hp7⟩ :=
    minimumPhase_spec (s.month + 1) (sd + 30 * ((s.month + 1 : ℕ) : ℤ)) s.working hval
  have horig : origSum (minimumPhase (s.month + 1) (sd + 30 * ((s.month + 1 : ℕ) : ℤ))
      s.working).1 = origSum s.working := origSum_eq_of_map_debt _ _ hp2
  have hitems := minimumPhase_items_inv (s.month + 1) (sd + 30 * ((s.month + 1 : ℕ) : ℤ))
    s.working
  simp only [simulateMonth]
  split
  · split
    · next x working2 info heq =>
      obtain ⟨he1, he2, he3, he4, he5⟩ := applyExtra_spec (s.month + 1)
        (mp - ((List.map (fun it => it.payment)
          (minimumPhase (s.month + 1) (sd + 30 * ((s.month + 1 : ℕ) : ℤ)) s.working).2).sum))
        (minimumPhase (s.month + 1) (sd + 30 * ((s.month + 1 : ℕ) : ℤ)) s.working).1 hp1
      rw [heq] at he1 he2 he3 he4 he5
      simp only [extraAmount] at he1 he2 he3 he4 he5
      have hsnd : (applyExtra (s.month + 1)
          (mp - ((List.map (fun it => it.payment)
            (minimumPhase (s.month + 1) (sd + 30 * ((s.month + 1 : ℕ) : ℤ)) s.working).2).sum))
          (minimumPhase (s.month + 1) (sd + 30 * ((s.month + 1 : ℕ) : ℤ)) s.working).1).2
          = some info := by
        rw [heq]
      obtain ⟨twd, htmem, htu, hinfo⟩ := applyExtra_some _ _ _ info hsnd
      obtain ⟨it, hitmem, hitid, hitm⟩ := minimumPhase_item_exists _ _ _ twd htmem htu
      have hmatch : ∃ it' ∈ (minimumPhase (s.month + 1)
          (sd + 30 * ((s.month + 1 : ℕ) : ℤ)) s.working).2.reverse ++ s.schedule_rev,
          (it'.debt_id == info.1.id && it'.month == s.month + 1) = true := by
        refine ⟨it, List.mem_append_left _ (List.mem_reverse.mpr hitmem), ?_⟩
        simp [hitid, hitm, hinfo]
      have horig2 : origSum working2 = origSum s.working :=
        (origSum_eq_of_map_debt _ _ he2).trans horig
      have hc3 : (paidCount s.working : ℚ)
          ≤ (paidCount (minimumPhase (s.month + 1)
            (sd + 30 * ((s.month + 1 : ℕ) : ℤ)) s.working).1 : ℚ) := by
        exact_mod_cast hp3
      simp only [simAccounting]
      refine ⟨he1, ?_, ?_, ?_⟩
      · rw [updateScheduleForExtra_sumPI _ _ _ _ _ hmatch, scheduleSumPI_append,
          scheduleSumPI_reverse, scheduleSumPI_eq_paySum _ (fun y hy => (hitems y hy).1),
          hsum]
        ring
      · rw [horig2]
        linarith [he4, hp6, hlo]
      · rw [horig2]
        linarith [he5, hp7, hhi]
    · next x working2 heq =>
      have hsnd : (applyExtra (s.month + 1)
          (mp - ((List.map (fun it => it.payment)
            (minimumPhase (s.month + 1) (sd + 30 * ((s.month + 1 : ℕ) : ℤ)) s.working).2).sum))
          (minimumPhase (s.month + 1) (sd + 30 * ((s.month + 1 : ℕ) : ℤ)) s.working).1).2
          = none := by
        rw [heq]
      have hfst := applyExtra_none _ _ _ hsnd
      rw [heq] at hfst
      simp only at hfst
      subst hfst
      have hc3 : (paidCount s.working : ℚ)
          ≤ (paidCount (minimumPhase (s.month + 1)
            (sd + 30 * ((s.month + 1 : ℕ) : ℤ)) s.working).1 : ℚ) := by
        exact_mod_cast hp3
      simp only [simAccounting]
      refine ⟨hp1, ?_, ?_, ?_⟩
      · rw [scheduleSumPI_append, scheduleSumPI_reverse,
          scheduleSumPI_eq_paySum _ (fun y hy => (hitems y hy).1), hsum]
        ring
      · rw [horig]
        linarith [hp6, hlo]
      · rw [horig]
        linarith [hp7, hhi]
  · have hc3 : (paidCount s.working : ℚ)
        ≤ (paidCount (minimumPhase (s.month + 1)
          (sd + 30 * ((s.month + 1 : ℕ) : ℤ)) s.working).1 : ℚ) := by
      exact_mod_cast hp3
    simp only [simAccounting]
    refine ⟨hp1, ?_, ?_, ?_⟩
    · rw [scheduleSumPI_append, scheduleSumPI_reverse,
        scheduleSumPI_eq_paySum _ (fun y hy => (hitems y hy).1), hsum]
      ring
    · rw [horig]
      linarith [hp6, hlo]
    · rw [horig]
      linarith [hp7, hhi]

/-- The month loop preserves the accounting invariant. -/
theorem runLoop_accounting (mp : ℚ) (sd : ℤ) :
    ∀ (fuel : ℕ) (s : SimState), simAccounting s →
      simAccounting (runLoop mp sd fuel s) := by
  intro fuel
  induction fuel with
  | zero =>
    intro s h
    exact h
  | succ n ih =>
    intro s h
    rw [runLoop]
    split
    · exact ih _ (simulateMonth_accounting mp sd s h)
    · exact h

/-- Phase 1 never changes any debt record or the list's order. -/
theorem minimumPhase_map_debt (m : ℕ) (dt : ℤ) :
    ∀ l : List WorkingDebt, (minimumPhase m dt l).1.map (fun wd => wd.debt)
      = l.map (fun wd => wd.debt) := by
  intro l
  induction l with
  | nil => rfl
  | cons wd rest ih =>
    by_cases hp : wd.paid_off = true
    · rw [minimumPhase_cons_paid m dt wd rest hp]
      simp only [List.map_cons, ih]
    · have hp0 : wd.paid_off = false := by
        cases hh : wd.paid_off
        · rfl
        · exact absurd hh hp
      rw [minimumPhase_cons_unpaid m dt wd rest hp0]
      simp only [List.map_cons, ih, payMinimumStep_eq]

/-- Phase 2 never changes any debt record or the list's order. -/
theorem applyExtra_map_debt (m : ℕ) (e : ℚ) :
    ∀ l : List WorkingDebt, (applyExtra m e l).1.map (fun wd => wd.debt)
      = l.map (fun wd => wd.debt) := by
  intro l
  induction l with
  | nil => rfl
  | cons wd rest ih =>
    by_cases hp : wd.paid_off = true
    · rw [applyExtra_cons_paid m e wd rest hp]
      simp only [List.map_cons, ih]
    · have hp0 : wd.paid_off = false := by
        cases hh : wd.paid_off
        · rfl
        · exact absurd hh hp
      rw [applyExtra_cons_unpaid m e wd rest hp0]
      simp only [List.map_cons, extraUpdatedDebt_eq]

/-- One simulated month never changes any debt record or the list's order. -/
theorem simulateMonth_map_debt (mp : ℚ) (sd : ℤ) (s : SimState) :
    (simulateMonth mp sd s).working.map (fun wd => wd.debt)
      = s.working.map (fun wd => wd.debt) := by
  simp only [simulateMonth]
  split
  · split
    · next x working2 info heq =>
      have := applyExtra_map_debt (s.month + 1)
        (mp - ((List.map (fun it => it.payment)
          (minimumPhase (s.month + 1) (sd + 30 * ((s.month + 1 : ℕ) : ℤ)) s.working).2).sum))
        (minimumPhase (s.month + 1) (sd + 30 * ((s.month + 1 : ℕ) : ℤ)) s.working).1
      rw [heq] at this
      simp only at this ⊢
      rw [this, minimumPhase_map_debt]
    · next x working2 heq =>
      have := applyExtra_map_debt (s.month + 1)
        (mp - ((List.map (fun it => it.payment)
          (minimumPhase (s.month + 1) (sd + 30 * ((s.month + 1 : ℕ) : ℤ)) s.working).2).sum))
        (minimumPhase (s.month + 1) (sd + 30 * ((s.month + 1 : ℕ) : ℤ)) s.working).1
      rw [heq] at this
      simp only at this ⊢
      rw [this, minimumPhase_map_debt]
  · simp only
    rw [minimumPhase_map_debt]

/-- The month loop never changes any debt record or the list's order. -/
theorem runLoop_map_debt (mp : ℚ) (sd : ℤ) :
    ∀ (fuel : ℕ) (s : SimState), (runLoop mp sd fuel s).working.map (fun wd => wd.debt)
      = s.working.map (fun wd => wd.debt) := by
  intro fuel
  induction fuel with
  | zero =>
    intro s
    rfl
  | succ n ih =>
    intro s
    rw [runLoop]
    split
    · rw [ih, simulateMonth_map_debt]
    · rfl

/-- A valid working list with every debt paid off has zero total balance. -/
theorem balSum_eq_zero (l : List WorkingDebt) (hv : workingValid l)
    (hall : ∀ wd ∈ l, wd.paid_off = true) : balSum l = 0 := by
  induction l with
  | nil => rfl
  | cons wd rest ih =>
    rw [balSum_cons, (hv wd (List.mem_cons_self wd rest)).2.2.2
      (hall wd (List.mem_cons_self wd rest)),
      ih (fun x hx => hv x (List.mem_cons_of_mem wd hx))
        (fun x hx => hall x (List.mem_cons_of_mem wd hx))]
    ring

/-- When every debt is paid off the paid count is the whole list. -/
theorem paidCount_all (l : List WorkingDebt) (hall : ∀ wd ∈ l, wd.paid_off = true) :
    paidCount l = l.length := by
  induction l with
  | nil => rfl
  | cons wd rest ih =>
    rw [paidCount_cons, if_pos (hall wd (List.mem_cons_self wd rest)),
      ih (fun x hx => hall x (List.mem_cons_of_mem wd hx))]
    simp [Nat.add_comm]

/-- The initial working list's debt column is the ordered debt list. -/
theorem initSimState_map_debt (ordered : List SimpleDebt) :
    (initSimState ordered).working.map (fun wd => wd.debt) = ordered := by
  simp only [initSimState, List.map_map]
  show List.map (fun d : SimpleDebt => d) ordered = ordered
  exact List.map_id ordered

/-- The initial state satisfies the accounting invariant when the debts are
valid. -/
theorem initSimState_accounting (ordered : List SimpleDebt)
    (hv : ∀ d ∈ ordered, debtValid d) : simAccounting (initSimState ordered) := by
  have hsums : balSum (initSimState ordered).working
      = origSum (initSimState ordered).working := by
    simp only [initSimState, balSum, origSum, List.map_map]
    rfl
  have hpc : paidCount (initSimState ordered).working = 0 := by
    simp only [initSimState, paidCount]
    clear hv hsums
    induction ordered with
    | nil => rfl
    | cons d rest ih =>
      simp only [List.map_cons, List.filter_cons]
      rw [if_neg (show ¬ (initWorking d).paid_off = true by simp [initWorking])]
      exact ih
  refine ⟨?_, ?_, ?_, ?_⟩
  · intro wd hwd
    simp only [initSimState, List.mem_map] at hwd
    obtain ⟨d, hd, rfl⟩ := hwd
    obtain ⟨h1, h2, h3⟩ := hv d hd
    exact ⟨h1, h2, h3, fun h => absurd h (by simp [initWorking])⟩
  · simp [initSimState, scheduleSumPI]
  · simp only [initSimState] at hsums ⊢
    linarith [hsums.le, hsums.ge]
  · simp only [initSimState] at hsums hpc ⊢
    rw [hpc]
    push_cast
    linarith [hsums.le, hsums.ge]

/-- A successful `runSimulation` happens exactly on validated input, and its
state is the 600-fuel loop from the ordered initial state. -/
theorem runSimulation_ok_elim (debts : List SimpleDebt) (strategy : PayoffStrategy)
    (mp : ℚ) (sd : ℤ) (co : List String) (st : SimState)
    (h : runSimulation debts strategy mp sd co = .ok st) :
    debts ≠ []
    ∧ st = runLoop mp sd MAX_MONTHS
        (initSimState (order_debts_by_strategy debts strategy co)) := by
  by_cases hne : debts = []
  · simp only [runSimulation] at h
    rw [if_pos hne] at h
    exact absurd h (by simp)
  · simp only [runSimulation] at h
    rw [if_neg hne] at h
    by_cases hlt : mp < (debts.map (fun d => d.minimum_payment)).sum
    · rw [if_pos hlt] at h
      exact absurd h (by simp)
    · rw [if_neg hlt] at h
      injection h with h
      exact ⟨hne, h.symm⟩

/-- C2 (amended): for every completed simulation (non-empty valid debts with
pairwise-distinct ids, duplicate-free custom order, every debt paid off at
exit), the returned scenario satisfies exactly
`sum(principal + interest over schedule) = total_paid`, and
`total_paid − total_interest` equals the sum of the input debts' original
balances up to the snap-to-zero write-off: it never exceeds that sum and falls
short of it by at most 0.01 per debt (not within 1e-6, see the
counterexample). -/
theorem C2_payment_accounting (debts : List SimpleDebt) (strategy : PayoffStrategy)
    (mp : ℚ) (sd : ℤ) (co : List String) (name : Option String)
    (sc : PayoffScenario) (st : SimState)
    (hd : (debts.map (fun d => d.id)).Nodup) (hco : co.Nodup)
    (hv : ∀ d ∈ debts, debtValid d)
    (hsim : simulate_payoff_scenario debts strategy mp sd co name = .ok sc)
    (hst : runSimulation debts strategy mp sd co = .ok st)
    (hall : ∀ wd ∈ st.working, wd.paid_off = true) :
    (sc.schedule.map (fun it => it.principal + it.interest)).sum = sc.total_paid
    ∧ sc.total_paid - sc.total_interest ≤ (debts.map (fun d => d.balance)).sum
    ∧ (debts.map (fun d => d.balance)).sum
        ≤ sc.total_paid - sc.total_interest + payoffThreshold * (debts.length : ℚ) := by
  obtain ⟨hne, hsteq⟩ := runSimulation_ok_elim debts strategy mp sd co st hst
  have hscb : sc = buildScenario strategy mp sd name st := by
    unfold simulate_payoff_scenario at hsim
    rw [hst] at hsim
    simp only [Except.map] at hsim
    injection hsim with hsim
    exact hsim.symm
  have hperm := order_debts_by_strategy_perm debts strategy co hd hco
  have hvord : ∀ d ∈ order_debts_by_strategy debts strategy co, debtValid d :=
    fun d hdm => hv d (hperm.mem_iff.mp hdm)
  have hacc : simAccounting st := by
    rw [hsteq]
    exact runLoop_accounting mp sd MAX_MONTHS _ (initSimState_accounting _ hvord)
  obtain ⟨hval, hsum, hlo, hhi⟩ := hacc
  have hmapdebt : st.working.map (fun wd => wd.debt)
      = order_debts_by_strategy debts strategy co := by
    rw [hsteq, runLoop_map_debt, initSimState_map_debt]
  have hbal0 : balSum st.working = 0 := balSum_eq_zero st.working hval hall
  have hpcall : paidCount st.working = st.working.length := paidCount_all st.working hall
  have hlen : st.working.length = debts.length := by
    have h1 : st.working.length = (order_debts_by_strategy debts strategy co).length := by
      rw [← List.length_map st.working (fun wd => wd.debt), hmapdebt]
    rw [h1, hperm.length_eq]
  have horigsum : origSum st.working = (debts.map (fun d => d.balance)).sum := by
    unfold origSum
    have h1 : st.working.map (fun wd => wd.debt.balance)
        = (st.working.map (fun wd => wd.debt)).map (fun d => d.balance) := by
      rw [List.map_map]
      rfl
    rw [h1, hmapdebt]
    exact (hperm.map (fun d => d.balance)).sum_eq
  have hf1 : sc.total_paid = st.total_paid := by
    rw [hscb]
    rfl
  have hf2 : sc.total_interest = st.total_interest := by
    rw [hscb]
    rfl
  have hf3 : sc.schedule = st.schedule_rev.reverse := by
    rw [hscb]
    rfl
  refine ⟨?_, ?_, ?_⟩
  · rw [hf3, hf1]
    have hrev : (st.schedule_rev.reverse.map (fun it => it.principal + it.interest)).sum
        = scheduleSumPI st.schedule_rev := by
      rw [← scheduleSumPI_reverse]
      rfl
    rw [hrev, hsum]
  · rw [hf1, hf2]
    rw [hbal0, horigsum] at hlo
    linarith
  · rw [hf1, hf2]
    rw [hbal0, horigsum, hpcall, hlen] at hhi
    linarith

/-- C2 witness: the accounting theorem at the concrete one-month run on
`exDebtA` (balance 100, payment 100): 100 paid, 0 interest, original balance
recovered exactly. -/
theorem C2_payment_accounting_witness :
    (([exDebtA].map (fun d => d.id)).Nodup ∧ ([] : List String).Nodup
      ∧ (∀ d ∈ [exDebtA], debtValid d)
      ∧ simulate_payoff_scenario [exDebtA] PayoffStrategy.snowball 100 0 [] none
          = .ok exScenarioA
      ∧ runSimulation [exDebtA] PayoffStrategy.snowball 100 0 [] = .ok exStateA
      ∧ (∀ wd ∈ exStateA.working, wd.paid_off = true))
    ∧ ((exScenarioA.schedule.map (fun it => it.principal + it.interest)).sum
          = exScenarioA.total_paid
      ∧ exScenarioA.total_paid - exScenarioA.total_interest
          ≤ ([exDebtA].map (fun d => d.balance)).sum
      ∧ ([exDebtA].map (fun d => d.balance)).sum
          ≤ exScenarioA.total_paid - exScenarioA.total_interest
            + payoffThreshold * (([exDebtA] : List SimpleDebt).length : ℚ)) :=
  ⟨⟨by decide, by decide, (by
      intro d hdm
      rw [List.mem_singleton] at hdm
      subst hdm
      exact ⟨by norm_num [exDebtA], by norm_num [exDebtA], by norm_num [exDebtA]⟩), by with_unfolding_all rfl,
      by with_unfolding_all rfl, by decide⟩,
    C2_payment_accounting [exDebtA] PayoffStrategy.snowball 100 0 [] none exScenarioA
      exStateA (by decide) (by decide) (by
      intro d hdm
      rw [List.mem_singleton] at hdm
      subst hdm
      exact ⟨by norm_num [exDebtA], by norm_num [exDebtA], by norm_num [exDebtA]⟩)
      (by with_unfolding_all rfl) (by with_unfolding_all rfl) (by decide)⟩

/-- C2 counterexample: the claim's 1e-6 tolerance on
`total_paid − total_interest = sum of original balances` is violated by the
snap-to-zero write-off: a debt of 100.005 at 0% APR with minimum 100 is paid
100 in month 1, the residual 0.005 is written off
(calculation_utils.py lines 163-164), and the completed run reports
total_paid 100, total_interest 0 — off the balance sum by 0.005 > 1e-6. -/
theorem C2_counterexample :
    (simulate_payoff_scenario [exDebtWriteoff] PayoffStrategy.snowball 100 0 [] none).map
        (fun sc => (sc.total_paid, sc.total_interest)) = .ok (100, 0)
    ∧ (runSimulation [exDebtWriteoff] PayoffStrategy.snowball 100 0 []).map
        (fun st => st.working.all (fun wd => wd.paid_off)) = .ok true
    ∧ ¬ (|(100 : ℚ) - 0 - (([exDebtWriteoff].map (fun d => d.balance)).sum)| ≤ 1e-6) :=
  ⟨by with_unfolding_all rfl, by with_unfolding_all rfl, by with_unfolding_all decide⟩

/-- Subtracting the capped extra payment is clamping at zero. -/
theorem sub_min_eq_max (b e : ℚ) : b - min e b = max (b - e) 0 := by
  rcases le_total e b with h | h
  · rw [min_eq_left h, max_eq_left (by linarith)]
  · rw [min_eq_right h, max_eq_right (by linarith)]
    ring

/-- The minimum-payment step preserves the two-run coupling on one debt
(both runs' copies unpaid). -/
theorem payMinimumStep_coupled (m : ℕ) (dt : ℤ) (w1 w2 : WorkingDebt)
    (hv1 : wdValid w1) (hv2 : wdValid w2) (hc : wdCoupled w1 w2)
    (hp1 : w1.paid_off = false) (_hp2 : w2.paid_off = false) :
    wdCoupled (payMinimumStep m dt w1).1 (payMinimumStep m dt w2).1 := by
  obtain ⟨hdebt, hb, _⟩ := hc
  have hnb := pmNewBalance_mono w1 w2 hdebt hb hv1 hv2
  rw [payMinimumStep_eq, payMinimumStep_eq]
  refine ⟨hdebt, snap_mono _ _ hnb, ?_⟩
  intro hflag1
  by_cases hc1 : pmNewBalance w1 ≤ payoffThreshold
  · show (if pmNewBalance w2 ≤ payoffThreshold then true else w2.paid_off) = true
    rw [if_pos (hnb.trans hc1)]
  · exfalso
    have : (if pmNewBalance w1 ≤ payoffThreshold then true else w1.paid_off) = true := hflag1
    rw [if_neg hc1, hp1] at this
    exact Bool.false_ne_true this

/-- The phase-2 update preserves the two-run coupling on the shared target
(run 2 has at least as much surplus). -/
theorem extraUpdatedDebt_coupled (m : ℕ) (e1 e2 : ℚ) (w1 w2 : WorkingDebt)
    (hc : wdCoupled w1 w2) (he : e1 ≤ e2) (hp1 : w1.paid_off = false) :
    wdCoupled (extraUpdatedDebt m e1 w1) (extraUpdatedDebt m e2 w2) := by
  obtain ⟨hdebt, hb, _⟩ := hc
  have hnb : w2.remaining_balance - min e2 w2.remaining_balance
      ≤ w1.remaining_balance - min e1 w1.remaining_balance := by
    rw [sub_min_eq_max, sub_min_eq_max]
    exact max_le_max (by linarith) (le_refl 0)
  rw [extraUpdatedDebt_eq, extraUpdatedDebt_eq]
  refine ⟨hdebt, snap_mono _ _ hnb, ?_⟩
  intro hflag1
  by_cases hc1 : w1.remaining_balance - min e1 w1.remaining_balance ≤ payoffThreshold
  · show (if w2.remaining_balance - min e2 w2.remaining_balance ≤ payoffThreshold
      then true else w2.paid_off) = true
    rw [if_pos (hnb.trans hc1)]
  · exfalso
    have : (if w1.remaining_balance - min e1 w1.remaining_balance ≤ payoffThreshold
        then true else w1.paid_off) = true := hflag1
    rw [if_neg hc1, hp1] at this
    exact Bool.false_ne_true this

/-- A paid-off valid debt has zero balance, zero interest and zero payment in
the pm functions. -/
theorem pm_zero_of_paid (wd : WorkingDebt) (hv : wdValid wd) (hp : wd.paid_off = true) :
    wd.remaining_balance = 0 := hv.2.2.2 hp

/-- Phase 1 preserves the two-run coupling, and run 2 pays no more (in total
payments and in total interest) than run 1. -/
theorem minimumPhase_coupled (m : ℕ) (dt : ℤ) :
    ∀ (l1 l2 : List WorkingDebt), workingValid l1 → workingValid l2 →
      List.Forall₂ wdCoupled l1 l2 →
      List.Forall₂ wdCoupled (minimumPhase m dt l1).1 (minimumPhase m dt l2).1
      ∧ ((minimumPhase m dt l2).2.map (fun it => it.payment)).sum
          ≤ ((minimumPhase m dt l1).2.map (fun it => it.payment)).sum
      ∧ ((minimumPhase m dt l2).2.map (fun it => it.interest)).sum
          ≤ ((minimumPhase m dt l1).2.map (fun it => it.interest)).sum := by
  intro l1 l2 hv1 hv2 h
  induction h with
  | nil =>
    exact ⟨List.Forall₂.nil, le_refl _, le_refl _⟩
  | cons hab htail ih =>
    next w1 w2 t1 t2 =>
    have hv1h : wdValid w1 := hv1 w1 (List.mem_cons_self w1 t1)
    have hv2h : wdValid w2 := hv2 w2 (List.mem_cons_self w2 t2)
    have hv1t : workingValid t1 := fun x hx => hv1 x (List.mem_cons_of_mem w1 hx)
    have hv2t : workingValid t2 := fun x hx => hv2 x (List.mem_cons_of_mem w2 hx)
    obtain ⟨ih1, ih2, ih3⟩ := ih hv1t hv2t
    by_cases hp1 : w1.paid_off = true
    · have hp2 : w2.paid_off = true := hab.2.2 hp1
      rw [minimumPhase_cons_paid m dt w1 t1 hp1, minimumPhase_cons_paid m dt w2 t2 hp2]
      exact ⟨List.Forall₂.cons hab ih1, ih2, ih3⟩
    · have hp1f : w1.paid_off = false := by
        cases hh : w1.paid_off
        · rfl
        · exact absurd hh hp1
      by_cases hp2 : w2.paid_off = true
      · rw [minimumPhase_cons_unpaid m dt w1 t1 hp1f, minimumPhase_cons_paid m dt w2 t2 hp2]
        have hstepv := payMinimumStep_wd_valid m dt w1 hv1h hp1f
        refine ⟨List.Forall₂.cons ⟨?_, ?_, ?_⟩ ih1, ?_, ?_⟩
        · rw [payMinimumStep_eq]
          exact hab.1
        · rw [pm_zero_of_paid w2 hv2h hp2]
          exact hstepv.1
        · intro _
          exact hp2
        · simp only [List.map_cons, List.sum_cons, payMinimumStep_eq]
          linarith [pmPay_nonneg w1 hv1h]
        · simp only [List.map_cons, List.sum_cons, payMinimumStep_eq]
          linarith [pmInterest_nonneg w1 hv1h]
      · have hp2f : w2.paid_off = false := by
          cases hh : w2.paid_off
          · rfl
          · exact absurd hh hp2
        rw [minimumPhase_cons_unpaid m dt w1 t1 hp1f,
          minimumPhase_cons_unpaid m dt w2 t2 hp2f]
        have hcstep := payMinimumStep_coupled m dt w1 w2 hv1h hv2h hab hp1f hp2f
        have hpaym := pmPay_mono w1 w2 hab.1 hab.2.1 hv1h
        have hintm := pmInterest_mono w1 w2 hab.1 hab.2.1 hv1h
        refine ⟨List.Forall₂.cons hcstep ih1, ?_, ?_⟩
        · simp only [List.map_cons, List.sum_cons, payMinimumStep_eq]
          linarith
        · simp only [List.map_cons, List.sum_cons, payMinimumStep_eq]
          linarith

/-- Applying extra principal in run 2 only (run 1 below the surplus threshold)
keeps the coupling: balances in run 2 only decrease further. -/
theorem applyExtra_coupled_right (m : ℕ) (e : ℚ) (he : 0 ≤ e) :
    ∀ (l1 l2 : List WorkingDebt), workingValid l2 →
      List.Forall₂ wdCoupled l1 l2 →
      List.Forall₂ wdCoupled l1 (applyExtra m e l2).1 := by
  intro l1 l2 hv2 h
  induction h with
  | nil => exact List.Forall₂.nil
  | cons hab htail ih =>
    next w1 w2 t1 t2 =>
    have hv2h : wdValid w2 := hv2 w2 (List.mem_cons_self w2 t2)
    have hv2t : workingValid t2 := fun x hx => hv2 x (List.mem_cons_of_mem w2 hx)
    by_cases hp2 : w2.paid_off = true
    · rw [applyExtra_cons_paid m e w2 t2 hp2]
      exact List.Forall₂.cons hab (ih hv2t)
    · have hp2f : w2.paid_off = false := by
        cases hh : w2.paid_off
        · rfl
        · exact absurd hh hp2
      rw [applyExtra_cons_unpaid m e w2 t2 hp2f]
      refine List.Forall₂.cons ⟨?_, ?_, ?_⟩ htail
      · rw [extraUpdatedDebt_eq]
        exact hab.1
      · have hx : 0 ≤ w2.remaining_balance - min e w2.remaining_balance := by
          have := min_le_right e w2.remaining_balance
          linarith
        have hle : (extraUpdatedDebt m e w2).remaining_balance
            ≤ w2.remaining_balance := by
          rw [extraUpdatedDebt_eq]
          refine (snap_le _ hx).trans ?_
          have : 0 ≤ min e w2.remaining_balance := le_min he hv2h.1
          linarith
        exact hle.trans hab.2.1
      · intro hflag1
        exact absurd (hab.2.2 hflag1) (by rw [hp2f]; exact Bool.false_ne_true)

/-- Phase 2 preserves the two-run coupling when run 2's surplus is at least
run 1's. -/
theorem applyExtra_coupled (m : ℕ) (e1 e2 : ℚ) (he : e1 ≤ e2) (he1 : 0 ≤ e1) :
    ∀ (l1 l2 : List WorkingDebt), workingValid l1 → workingValid l2 →
      List.Forall₂ wdCoupled l1 l2 →
      List.Forall₂ wdCoupled (applyExtra m e1 l1).1 (applyExtra m e2 l2).1 := by
  intro l1 l2 hv1 hv2 h
  induction h with
  | nil => exact List.Forall₂.nil
  | cons hab htail ih =>
    next w1 w2 t1 t2 =>
    have hv1h : wdValid w1 := hv1 w1 (List.mem_cons_self w1 t1)
    have hv2h : wdValid w2 := hv2 w2 (List.mem_cons_self w2 t2)
    have hv1t : workingValid t1 := fun x hx => hv1 x (List.mem_cons_of_mem w1 hx)
    have hv2t : workingValid t2 := fun x hx => hv2 x (List.mem_cons_of_mem w2 hx)
    by_cases hp1 : w1.paid_off = true
    · have hp2 : w2.paid_off = true := hab.2.2 hp1
      rw [applyExtra_cons_paid m e1 w1 t1 hp1, applyExtra_cons_paid m e2 w2 t2 hp2]
      exact List.Forall₂.cons hab (ih hv1t hv2t)
    · have hp1f : w1.paid_off = false := by
        cases hh : w1.paid_off
        · rfl
        · exact absurd hh hp1
      rw [applyExtra_cons_unpaid m e1 w1 t1 hp1f]
      by_cases hp2 : w2.paid_off = true
      · rw [applyExtra_cons_paid m e2 w2 t2 hp2]
        refine List.Forall₂.cons ⟨?_, ?_, ?_⟩
          (applyExtra_coupled_right m e2 (he1.trans he) t1 t2 hv2t htail)
        · rw [extraUpdatedDebt_eq]
          exact hab.1
        · rw [pm_zero_of_paid w2 hv2h hp2]
          exact (extraUpdatedDebt_valid m e1 w1 hv1h hp1f).1
        · intro _
          exact hp2
      · have hp2f : w2.paid_off = false := by
          cases hh : w2.paid_off
          · rfl
          · exact absurd hh hp2
        rw [applyExtra_cons_unpaid m e2 w2 t2 hp2f]
        exact List.Forall₂.cons
          (extraUpdatedDebt_coupled m e1 e2 w1 w2 hab he hp1f) htail

/-- The working list of one simulated month, as an if-expression over the
surplus threshold test. -/
theorem simulateMonth_working (mp : ℚ) (sd : ℤ) (s : SimState) :
    (simulateMonth mp sd s).working
      = if mp - ((List.map (fun it => it.payment)
            (minimumPhase (s.month + 1) (sd + 30 * ((s.month + 1 : ℕ) : ℤ))
              s.working).2).sum) > surplusThreshold
        then (applyExtra (s.month + 1)
            (mp - ((List.map (fun it => it.payment)
              (minimumPhase (s.month + 1) (sd + 30 * ((s.month + 1 : ℕ) : ℤ))
                s.working).2).sum))
            (minimumPhase (s.month + 1) (sd + 30 * ((s.month + 1 : ℕ) : ℤ)) s.working).1).1
        else (minimumPhase (s.month + 1) (sd + 30 * ((s.month + 1 : ℕ) : ℤ)) s.working).1 := by
  simp only [simulateMonth]
  split
  · split
    · next x w2 info heq =>
      rw [heq]
    · next x w2 heq =>
      rw [heq]
  · rfl

/-- The accumulated interest of one simulated month. -/
theorem simulateMonth_total_interest (mp : ℚ) (sd : ℤ) (s : SimState) :
    (simulateMonth mp sd s).total_interest
      = s.total_interest + ((List.map (fun it => it.interest)
          (minimumPhase (s.month + 1) (sd + 30 * ((s.month + 1 : ℕ) : ℤ))
            s.working).2).sum) := by
  simp only [simulateMonth]
  split
  · split
    · rfl
    · rfl
  · rfl

/-- One month preserves working-list validity. -/
theorem simulateMonth_valid (mp : ℚ) (sd : ℤ) (s : SimState)
    (hv : workingValid s.working) : workingValid (simulateMonth mp sd s).working := by
  obtain ⟨hp1, _, _, _, _, _, _⟩ :=
    minimumPhase_spec (s.month + 1) (sd + 30 * ((s.month + 1 : ℕ) : ℤ)) s.working hv
  rw [simulateMonth_working]
  split
  · exact (applyExtra_spec _ _ _ hp1).1
  · exact hp1

/-- One month never decreases the accumulated interest (valid working
list). -/
theorem simulateMonth_interest_le (mp : ℚ) (sd : ℤ) (s : SimState)
    (hv : workingValid s.working) :
    s.total_interest ≤ (simulateMonth mp sd s).total_interest := by
  obtain ⟨_, _, _, hp4, _, _, _⟩ :=
    minimumPhase_spec (s.month + 1) (sd + 30 * ((s.month + 1 : ℕ) : ℤ)) s.working hv
  rw [simulateMonth_total_interest]
  linarith

/-- One simulated month preserves the two-run coupling when run 2 pays at
least as much per month. -/
theorem simulateMonth_coupled (mp1 mp2 : ℚ) (sd : ℤ) (s1 s2 : SimState)
    (hmp : mp1 ≤ mp2) (hv1 : workingValid s1.working) (hv2 : workingValid s2.working)
    (hcpl : stateCoupled s1 s2) :
    stateCoupled (simulateMonth mp1 sd s1) (simulateMonth mp2 sd s2) := by
  obtain ⟨hmon, hwork, hint⟩ := hcpl
  obtain ⟨hfc, hpays, hints⟩ := minimumPhase_coupled (s2.month + 1)
    (sd + 30 * ((s2.month + 1 : ℕ) : ℤ)) s1.working s2.working hv1 hv2 hwork
  obtain ⟨hval1, _, _, hint1, hpay1, _, _⟩ :=
    minimumPhase_spec (s2.month + 1) (sd + 30 * ((s2.month + 1 : ℕ) : ℤ)) s1.working hv1
  obtain ⟨hval2, _, _, hint2, hpay2, _, _⟩ :=
    minimumPhase_spec (s2.month + 1) (sd + 30 * ((s2.month + 1 : ℕ) : ℤ)) s2.working hv2
  refine ⟨?_, ?_, ?_⟩
  · rw [simulateMonth_month, simulateMonth_month, hmon]
  · rw [simulateMonth_working, simulateMonth_working, hmon]
    by_cases hc1 : mp1 - ((List.map (fun it => it.payment)
        (minimumPhase (s2.month + 1) (sd + 30 * ((s2.month + 1 : ℕ) : ℤ))
          s1.working).2).sum) > surplusThreshold
    · have hc2 : mp2 - ((List.map (fun it => it.payment)
          (minimumPhase (s2.month + 1) (sd + 30 * ((s2.month + 1 : ℕ) : ℤ))
            s2.working).2).sum) > surplusThreshold := by
        have := hpays
        unfold surplusThreshold at hc1 ⊢
        linarith
      rw [if_pos hc1, if_pos hc2]
      refine applyExtra_coupled _ _ _ ?_ ?_ _ _ hval1 hval2 hfc
      · linarith
      · have hpt : (0 : ℚ) < surplusThreshold := by
          unfold surplusThreshold
          norm_num
        linarith
    · rw [if_neg hc1]
      by_cases hc2 : mp2 - ((List.map (fun it => it.payment)
          (minimumPhase (s2.month + 1) (sd + 30 * ((s2.month + 1 : ℕ) : ℤ))
            s2.working).2).sum) > surplusThreshold
      · rw [if_pos hc2]
        refine applyExtra_coupled_right _ _ ?_ _ _ hval2 hfc
        have hpt : (0 : ℚ) < surplusThreshold := by
          unfold surplusThreshold
          norm_num
        linarith
      · rw [if_neg hc2]
        exact hfc
  · rw [simulateMonth_total_interest, simulateMonth_total_interest, hmon]
    linarith

/-- If the faster run still has an unpaid debt, so does the slower one. -/
theorem forall2_any_unpaid : ∀ (l1 l2 : List WorkingDebt),
    List.Forall₂ wdCoupled l1 l2 →
    l2.any (fun wd => ! wd.paid_off) = true →
    l1.any (fun wd => ! wd.paid_off) = true := by
  intro l1 l2 h
  induction h with
  | nil =>
    intro h2
    exact h2
  | cons hab htail ih =>
    next w1 w2 t1 t2 =>
    intro h2
    simp only [List.any_cons, Bool.or_eq_true] at h2 ⊢
    rcases h2 with h2 | h2
    · left
      cases hw1 : w1.paid_off
      · rfl
      · rw [hab.2.2 hw1] at h2
        exact absurd h2 (by simp)
    · right
      exact ih h2

/-- The loop never decreases the month counter. -/
theorem runLoop_month_ge (mp : ℚ) (sd : ℤ) :
    ∀ (fuel : ℕ) (s : SimState), s.month ≤ (runLoop mp sd fuel s).month := by
  intro fuel
  induction fuel with
  | zero =>
    intro s
    exact le_refl _
  | succ n ih =>
    intro s
    unfold runLoop
    split
    · have h1 := ih (simulateMonth mp sd s)
      rw [simulateMonth_month] at h1
      exact (Nat.le_succ s.month).trans h1
    · exact le_refl _

/-- The loop never decreases the accumulated interest (valid working list). -/
theorem runLoop_interest_ge (mp : ℚ) (sd : ℤ) :
    ∀ (fuel : ℕ) (s : SimState), workingValid s.working →
      s.total_interest ≤ (runLoop mp sd fuel s).total_interest := by
  intro fuel
  induction fuel with
  | zero =>
    intro s _
    exact le_refl _
  | succ n ih =>
    intro s hv
    unfold runLoop
    split
    · exact (simulateMonth_interest_le mp sd s hv).trans
        (ih (simulateMonth mp sd s) (simulateMonth_valid mp sd s hv))
    · exact le_refl _

/-- Two coupled runs of the month loop: the run with the larger monthly
payment finishes no later and with no more accumulated interest. -/
theorem runLoop_coupled (mp1 mp2 : ℚ) (sd : ℤ) (hmp : mp1 ≤ mp2) :
    ∀ (fuel : ℕ) (s1 s2 : SimState), workingValid s1.working →
      workingValid s2.working → stateCoupled s1 s2 →
      (runLoop mp2 sd fuel s2).month ≤ (runLoop mp1 sd fuel s1).month
      ∧ (runLoop mp2 sd fuel s2).total_interest
          ≤ (runLoop mp1 sd fuel s1).total_interest := by
  intro fuel
  induction fuel with
  | zero =>
    intro s1 s2 _ _ hcpl
    exact ⟨le_of_eq hcpl.1.symm, hcpl.2.2⟩
  | succ n ih =>
    intro s1 s2 hv1 hv2 hcpl
    by_cases hc2 : s2.working.any (fun wd => ! wd.paid_off) = true
    · have hc1 : s1.working.any (fun wd => ! wd.paid_off) = true :=
        forall2_any_unpaid s1.working s2.working hcpl.2.1 hc2
      show (runLoop mp2 sd (n + 1) s2).month ≤ (runLoop mp1 sd (n + 1) s1).month
        ∧ (runLoop mp2 sd (n + 1) s2).total_interest
            ≤ (runLoop mp1 sd (n + 1) s1).total_interest
      unfold runLoop
      rw [if_pos hc1, if_pos hc2]
      exact ih (simulateMonth mp1 sd s1) (simulateMonth mp2 sd s2)
        (simulateMonth_valid mp1 sd s1 hv1) (simulateMonth_valid mp2 sd s2 hv2)
        (simulateMonth_coupled mp1 mp2 sd s1 s2 hmp hv1 hv2 hcpl)
    · have h2eq : runLoop mp2 sd (n + 1) s2 = s2 := by
        unfold runLoop
        rw [if_neg hc2]
      rw [h2eq]
      constructor
      · rw [← hcpl.1]
        exact runLoop_month_ge mp1 sd (n + 1) s1
      · exact hcpl.2.2.trans (runLoop_interest_ge mp1 sd (n + 1) s1 hv1)

/-- Every debt the ordering function returns is one of the input debts. -/
theorem order_debts_mem (debts : List SimpleDebt) (strategy : PayoffStrategy)
    (co : List String) (x : SimpleDebt)
    (hx : x ∈ order_debts_by_strategy debts strategy co) : x ∈ debts := by
  cases strategy with
  | snowball =>
    simp only [order_debts_by_strategy] at hx
    exact (List.perm_insertionSort (fun a b => a.balance ≤ b.balance) debts).mem_iff.mp hx
  | avalanche =>
    simp only [order_debts_by_strategy] at hx
    exact (List.perm_insertionSort (fun a b => b.apr ≤ a.apr) debts).mem_iff.mp hx
  | custom =>
    simp only [order_debts_by_strategy] at hx
    split at hx
    · exact (List.perm_insertionSort (fun a b => a.balance ≤ b.balance) debts).mem_iff.mp hx
    · rcases List.mem_append.mp hx with hx | hx
      · obtain ⟨i, _, hfind⟩ := List.mem_filterMap.mp hx
        have := List.mem_of_find?_eq_some hfind
        exact List.mem_reverse.mp this
      · have hrem := (List.perm_insertionSort
          (fun a b => a.balance ≤ b.balance)
          (debts.filter (fun d => ! co.contains d.id))).mem_iff.mp hx
        exact (List.mem_filter.mp hrem).1

/-- C3: for a fixed valid non-empty debt list, strategy, custom order and
start date, and two monthly payments p1 ≤ p2 that both satisfy the
minimum-payment precondition, both simulations succeed and the run with the
larger payment has total_months ≤ and total_interest ≤ those of the smaller
one (increasing the monthly payment never increases months to payoff or total
interest). -/
theorem C3_monotonic_payment (debts : List SimpleDebt) (strategy : PayoffStrategy)
    (sd : ℤ) (co : List String) (name : Option String) (p1 p2 : ℚ)
    (hv : ∀ d ∈ debts, debtValid d) (hne : debts ≠ []) (hp : p1 ≤ p2)
    (h1 : (debts.map (fun d => d.minimum_payment)).sum ≤ p1) :
    ∃ sc1 sc2 : PayoffScenario,
      simulate_payoff_scenario debts strategy p1 sd co name = .ok sc1
      ∧ simulate_payoff_scenario debts strategy p2 sd co name = .ok sc2
      ∧ sc2.total_months ≤ sc1.total_months
      ∧ sc2.total_interest ≤ sc1.total_interest := by
  have h2 : (debts.map (fun d => d.minimum_payment)).sum ≤ p2 := h1.trans hp
  have hvord : ∀ d ∈ order_debts_by_strategy debts strategy co, debtValid d :=
    fun d hd => hv d (order_debts_mem debts strategy co d hd)
  have hvw : workingValid
      (initSimState (order_debts_by_strategy debts strategy co)).working :=
    (initSimState_accounting _ hvord).1
  have hcpl : stateCoupled (initSimState (order_debts_by_strategy debts strategy co))
      (initSimState (order_debts_by_strategy debts strategy co)) := by
    refine ⟨rfl, ?_, le_refl _⟩
    rw [List.forall₂_same]
    intro w _
    exact ⟨rfl, le_refl _, fun h => h⟩
  have hrun := runLoop_coupled p1 p2 sd hp MAX_MONTHS
    (initSimState (order_debts_by_strategy debts strategy co))
    (initSimState (order_debts_by_strategy debts strategy co)) hvw hvw hcpl
  refine ⟨buildScenario strategy p1 sd name
      (runLoop p1 sd MAX_MONTHS (initSimState (order_debts_by_strategy debts strategy co))),
    buildScenario strategy p2 sd name
      (runLoop p2 sd MAX_MONTHS (initSimState (order_debts_by_strategy debts strategy co))),
    ?_, ?_, ?_, ?_⟩
  · unfold simulate_payoff_scenario runSimulation
    rw [if_neg hne, if_neg (not_lt.mpr h1)]
    rfl
  · unfold simulate_payoff_scenario runSimulation
    rw [if_neg hne, if_neg (not_lt.mpr h2)]
    rfl
  · exact hrun.1
  · exact hrun.2

/-- C3 witness: one valid debt, payments 60 ≤ 100, both above the 50 minimum;
the theorem applies and yields the two successful, monotonically related
scenarios. -/
theorem C3_monotonic_payment_witness :
    ((∀ d ∈ [exDebtA], debtValid d) ∧ [exDebtA] ≠ [] ∧ (60 : ℚ) ≤ 100
      ∧ ([exDebtA].map (fun d => d.minimum_payment)).sum ≤ (60 : ℚ))
    ∧ ∃ sc1 sc2 : PayoffScenario,
        simulate_payoff_scenario [exDebtA] PayoffStrategy.snowball 60 0 [] none = .ok sc1
        ∧ simulate_payoff_scenario [exDebtA] PayoffStrategy.snowball 100 0 [] none = .ok sc2
        ∧ sc2.total_months ≤ sc1.total_months
        ∧ sc2.total_interest ≤ sc1.total_interest := by
  have hv : ∀ d ∈ [exDebtA], debtValid d := by
    intro d hd
    rw [List.mem_singleton] at hd
    subst hd
    exact ⟨by norm_num [exDebtA], by norm_num [exDebtA], by norm_num [exDebtA]⟩
  have hmin : ([exDebtA].map (fun d => d.minimum_payment)).sum ≤ (60 : ℚ) := by
    with_unfolding_all decide
  exact ⟨⟨hv, by simp, by norm_num, hmin⟩,
    C3_monotonic_payment [exDebtA] PayoffStrategy.snowball 0 [] none 60 100 hv
      (by simp) (by norm_num) hmin⟩
